import Mathlib

/-!
# Auto-Stop Media — verification of the arbitration engine

Shallow embedding of the media arbitration engine of the `purr/auto-stop`
repository.  The definitions below translate, method by method, the current
`MediaManager` revision in `src/extension/background/index.js` (the last of the
concatenated revisions in that file) and the `DesktopConnector` in
`src/extension/background/desktop-connector.js`.

Modelling conventions:
* JavaScript timestamps (`Date.now()`) are natural numbers (milliseconds).
* JavaScript numbers used for volume / backoff arithmetic are rationals `ℚ`
  (the concrete values involved are exactly representable doubles).
* `undefined` fields are `Option` (`none`); desktop media records carry
  `tabId = none` and `frameId = none`, exactly as the wire objects passed by
  the desktop connector carry no `tabId`/`frameId` property.
* The JS `x || y` default idiom on strings / numbers is `jsOrS` / `jsOrN`.
* Asynchronous side effects (`browser.tabs.sendMessage`, WebSocket sends)
  become elements of an `Intent` trace; `broadcastUpdate()` calls are counted.
* The engine methods execute to completion before the next event (the
  background script is single threaded), so each handler is a pure function
  from the pre-state to a `Result` (post-state, emitted intents, broadcasts).
-/

namespace AutoStop

/-- JS `a || b` for strings: the empty string is falsy. -/
def jsOrS (a b : String) : String := if a = "" then b else a

/-- JS `a || b` for numbers: `0` (and `undefined`, modelled as `0`) is falsy. -/
def jsOrN (a b : Nat) : Nat := if a = 0 then b else a

/-- `MEDIA_MANAGER_CONFIG.RAPID_PLAY_COOLDOWN` (ms). -/
def RAPID_PLAY_COOLDOWN : Nat := 300

/-- `MEDIA_MANAGER_CONFIG.SCROLL_COOLDOWN` (ms). -/
def SCROLL_COOLDOWN : Nat := 1500

/-- Window (ms) in which a play event from a freshly extension-paused media is
dropped (`handleMediaPlay`, the `recentlyPaused` check uses a literal `500`). -/
def RECENTLY_PAUSED_WINDOW : Nat := 500

/-- Entries older than this (ms) are pruned from `recentPlayEvents`. -/
def RECENT_PLAY_RETENTION : Nat := 3000

/-- A media record.  One flat shape serves `activeMedia`, the entries of
`pausedStack`, the values of `allMedia` and desktop snapshots, mirroring the
spread-based records of the JS source (absent fields are the defaults). -/
structure MediaRec where
  tabId : Option Nat := none
  frameId : Option Nat := none
  mediaId : String := ""
  adapter : String := "generic"
  url : String := ""
  title : String := ""
  favicon : String := ""
  cover : String := ""
  duration : Nat := 0
  currentTime : Nat := 0
  isPlaying : Bool := false
  hasSkip : Bool := false
  mediaType : String := "unknown"
  manuallyPaused : Bool := false
  expired : Bool := false
  pausedAt : Option Nat := none
  startedAt : Nat := 0
  lastHeartbeat : Nat := 0
  playbackRate : Nat := 0
  isDesktop : Bool := false
deriving Repr, DecidableEq

/-- Does the first list start with the second one?  (Structural-recursion
version of `String.startsWith`, kept kernel-computable.) -/
def listStarts : List Char → List Char → Bool
  | _, [] => true
  | [], _ :: _ => false
  | c :: cs, d :: ds => decide (c = d) && listStarts cs ds

/-- `s.startsWith pre`. -/
def strStarts (s pre : String) : Bool := listStarts s.data pre.data

/-- `s.endsWith suf`. -/
def strEnds (s suf : String) : Bool := listStarts s.data.reverse suf.data.reverse

/-- `s.drop n` (drop `n` characters). -/
def strDrop (n : Nat) (s : String) : String := String.mk (s.data.drop n)

/-- `isDesktopMedia(media)`: the `isDesktop` flag or a `desktop-` id. -/
def isDesktopMedia (m : MediaRec) : Bool :=
  m.isDesktop || strStarts m.mediaId "desktop-"

/-- The composite identity `(tabId, frameId, mediaId)` of a record.  Desktop
records carry `tabId = none` and `frameId = none`, so on desktop records this
key degenerates to the `mediaId`, matching the per-kind identity of the spec. -/
def keyOf (m : MediaRec) : Option Nat × Option Nat × String :=
  (m.tabId, m.frameId, m.mediaId)

/-- Identity comparison used by the stack filters of the source
(`m.tabId === x.tabId && m.frameId === x.frameId && m.mediaId === x.mediaId`). -/
def sameIdent (a b : MediaRec) : Bool :=
  decide (a.tabId = b.tabId) && decide (a.frameId = b.frameId) &&
    decide (a.mediaId = b.mediaId)

/-- Identity comparison against raw event coordinates. -/
def matchesEvent (m : MediaRec) (tabId frameId : Nat) (mediaId : String) : Bool :=
  decide (m.tabId = some tabId) && decide (m.frameId = some frameId) &&
    decide (m.mediaId = mediaId)

/-- Policy settings (`AUTOSTOP.DEFAULT_SETTINGS` defaults). -/
structure Settings where
  blacklist : List String := []
  resumeDelay : Nat := 1500
  fadeInDuration : Int := 2000
  fadeInStartVolume : ℚ := 1/5
  autoExpireSeconds : Nat := 0
  resumeOnManualPause : Bool := true
deriving Repr, DecidableEq

/-- If the second list is an initial segment of the first, the remainder. -/
def stripInit : List Char → List Char → Option (List Char)
  | l, [] => some l
  | [], _ :: _ => none
  | c :: cs, d :: ds => if c = d then stripInit cs ds else none

/-- The characters after the first occurrence of `"://"`. -/
def afterSchemeSep : List Char → Option (List Char)
  | [] => none
  | c :: cs =>
      match stripInit (c :: cs) [':', '/', '/'] with
      | some r => some r
      | none => afterSchemeSep cs

/-- The characters before the first `/`. -/
def takeUntilSlash : List Char → List Char
  | [] => []
  | c :: cs => if c = '/' then [] else c :: takeUntilSlash cs

/-- Hostname of a URL as computed by `new URL(url).hostname`, modelled as the
authority after the first `"://"` and before the following `/`; a string
with no scheme separator models the `URL` constructor throwing. -/
def rawHostname (url : String) : Option String :=
  (afterSchemeSep url.data).map fun r => String.mk (takeUntilSlash r)

/-- `isUnknownMedia(url, title)` of the media manager: hostname defaults to
`"Unknown"` for an empty or unparsable URL and the leading `www.` is dropped. -/
def isUnknownMedia (url title : String) : Bool :=
  let hostname :=
    if url = "" then "Unknown"
    else match rawHostname url with
      | some h => if strStarts h "www." then strDrop 4 h else h
      | none => "Unknown"
  (decide (hostname = "") || decide (hostname = "Unknown")) &&
    (decide (title = "") || decide (title = "Unknown") ||
      decide (title = "Unknown Media"))

/-- Modelled from the spec: the origin-blacklist predicate of the Policy
Store (`storageManager.isBlacklisted`).  The current `StorageManager` is not
under `src/` — only its callers are — so the predicate is modelled on the
spec's "origin-blacklist predicate", with the hostname pattern matching of the
repository's earlier whitelist matcher (exact host, subdomain suffix, and
`*.`-wildcard patterns).  All claims treat this predicate opaquely. -/
def isBlacklisted (settings : Settings) (url : String) : Bool :=
  if url = "" then false
  else match rawHostname url with
    | none => false
    | some hostname =>
        settings.blacklist.any fun pat =>
          if strStarts pat "*." then
            let base := strDrop 2 pat
            decide (hostname = base) || strEnds hostname ("." ++ base)
          else
            decide (hostname = pat) || strEnds hostname ("." ++ pat)

/-- Control intents and wire messages emitted by the engine. -/
inductive Intent where
  | playIntent (tabId frameId : Nat) (mediaId : String)
  | pauseIntent (tabId frameId : Nat) (mediaId : String)
  | skipIntent (tabId frameId : Nat) (mediaId : String)
  | prevIntent (tabId frameId : Nat) (mediaId : String)
  | setVolumeIntent (tabId frameId : Nat) (mediaId : String) (volume : ℚ)
  | desktopControl (action : String) (mediaId : String)
  | notifyDesktopPlay (mediaId title url : String)
deriving Repr, DecidableEq

/-- Registry key: `getMediaKey(tabId, frameId, mediaId)`. -/
abbrev MediaKey := Nat × Nat × String

/-- `allMedia` association list operations (JS `Map`). -/
def alGet (k : MediaKey) (l : List (MediaKey × MediaRec)) : Option MediaRec :=
  (l.find? fun p => decide (p.1 = k)).map (·.2)

/-- `Map.set`: replace the binding of `k` (placement is irrelevant here). -/
def alSet (k : MediaKey) (v : MediaRec) (l : List (MediaKey × MediaRec)) :
    List (MediaKey × MediaRec) :=
  (k, v) :: l.filter fun p => decide (p.1 ≠ k)

/-- `Map.delete`. -/
def alDel (k : MediaKey) (l : List (MediaKey × MediaRec)) :
    List (MediaKey × MediaRec) :=
  l.filter fun p => decide (p.1 ≠ k)

/-- Update the value bound at `k`, if any. -/
def alUpdate (k : MediaKey) (f : MediaRec → MediaRec)
    (l : List (MediaKey × MediaRec)) : List (MediaKey × MediaRec) :=
  l.map fun p => if p.1 = k then (p.1, f p.2) else p

/-- The media manager's mutable state. -/
structure MMState where
  activeMedia : Option MediaRec := none
  pausedStack : List MediaRec := []
  allMedia : List (MediaKey × MediaRec) := []
  pendingResume : Option MediaRec := none
  originalVolumes : List (String × ℚ) := []
  recentPlayEvents : List (String × Nat) := []
deriving Repr, DecidableEq

/-- The state at engine start (`new MediaManager()`). -/
def initState : MMState := {}

/-- Result of running one engine method: the post-state, the intents sent to
adapters / the desktop link, and the number of `broadcastUpdate()` calls. -/
structure MMResult where
  st : MMState
  intents : List Intent := []
  broadcasts : Nat := 0
deriving Repr, DecidableEq

/-- Payload of a lifecycle event from a content script. -/
structure EventData where
  mediaId : String := ""
  title : String := ""
  cover : String := ""
  duration : Nat := 0
  currentTime : Nat := 0
  adapter : String := ""
  isPlaying : Bool := false
  hasSkip : Bool := false
  mediaType : String := ""
  manual : Bool := false
  playbackRate : Nat := 0
deriving Repr, DecidableEq

/-- The `sender.tab` metadata accompanying a content-script message. -/
structure TabInfo where
  url : String := ""
  title : String := ""
  favIconUrl : String := ""
deriving Repr, DecidableEq

/-- Snapshot of `desktopConnector.getState()` as read by the engine. -/
structure DeskSnap where
  connected : Bool := true
  activeMedia : Option MediaRec := none
  pausedList : List MediaRec := []
deriving Repr, DecidableEq

/-- `setMediaVolume(tabId, frameId, mediaId, volume)`: the volume message is
sent only when the key is still registered, clamped into `[0, 1]`.  (When the
key is gone the source also cancels a pending resume aimed at that media; the
call sites modelled here reach this function either with the key registered or
while the pending resume is being torn down already, so only the emission
behaviour is modelled.) -/
def setMediaVolume (st : MMState) (tabId frameId : Nat) (mediaId : String)
    (volume : ℚ) : List Intent :=
  if alGet (tabId, frameId, mediaId) st.allMedia = none then []
  else [Intent.setVolumeIntent tabId frameId mediaId (max 0 (min 1 volume))]

/-- `resetVolume(media)`: restore a browser media to its original volume
(`originalVolumes` is never populated in this revision, so the default `1`
applies); desktop media are skipped. -/
def resetVolume (st : MMState) (m : MediaRec) : List Intent :=
  if isDesktopMedia m then []
  else match m.tabId, m.frameId with
    | some t, some f =>
        let orig := ((st.originalVolumes.find? fun p =>
          decide (p.1 = m.mediaId)).map (·.2)).getD 1
        setMediaVolume st t f m.mediaId orig
    | _, _ => []

/-- `cancelPendingResume(putBackInStack = true)`: clear the timer and fade,
restore the target's volume and, when `putBackInStack` and no entry with the
target's identity is already in the stack, unshift the target back onto
`pausedStack`. -/
def cancelPendingResume (putBackInStack : Bool) (st : MMState) :
    MMState × List Intent :=
  match st.pendingResume with
  | none => (st, [])
  | some p =>
      let ints := resetVolume st p
      let stack :=
        if putBackInStack then
          if st.pausedStack.any (fun m => sameIdent m p) then st.pausedStack
          else p :: st.pausedStack
        else st.pausedStack
      ({ st with pendingResume := none, pausedStack := stack }, ints)

/-- Eligibility test of `findNextAutoResumable`: not manually paused, not
expired, and a `mediaId` different from the excluded one (`null` exclusion
matches nothing, as `m.mediaId !== excludeMediaId` always holds then). -/
def eligible (exclude : Option String) (m : MediaRec) : Bool :=
  !m.manuallyPaused && !m.expired &&
    (match exclude with
     | none => true
     | some e => decide (m.mediaId ≠ e))

/-- `findNextAutoResumable(excludeMediaId)`: return the first eligible entry
and the stack with that entry spliced out. -/
def findNextAutoResumable (exclude : Option String) :
    List MediaRec → Option MediaRec × List MediaRec
  | [] => (none, [])
  | m :: rest =>
      if eligible exclude m then (some m, rest)
      else
        let r := findNextAutoResumable exclude rest
        (r.1, m :: r.2)

/-- Elapsed play time in seconds computed by `scheduleResumePrevious`:
`(Date.now() - (stoppedMedia.startedAt || Date.now())) / 1000`. -/
def playDurationSec (now : Nat) (sm : MediaRec) : ℚ :=
  (((now : ℤ) - ((jsOrN sm.startedAt now : Nat) : ℤ) : ℤ) : ℚ) / 1000

/-- `scheduleResumePrevious(specificMedia, stoppedMedia, wasManualPause)`.
Order of checks, as in the source: cancel anything pending (re-queueing its
target), then auto-expire, then the `resumeOnManualPause` policy, then select
and arm.  An armed timer is the `pendingResume` field of the post-state. -/
def scheduleResumePrevious (now : Nat) (settings : Settings)
    (specificMedia stoppedMedia : Option MediaRec) (wasManualPause : Bool)
    (st : MMState) : MMResult :=
  let c := cancelPendingResume true st
  let st1 := c.1
  let expireHit : Bool :=
    match stoppedMedia with
    | some sm =>
        decide (0 < settings.autoExpireSeconds) &&
          decide ((settings.autoExpireSeconds : ℚ) ≤ playDurationSec now sm)
    | none => false
  if expireHit then
    { st := { st1 with
        pausedStack := st1.pausedStack.map fun m => { m with expired := true } },
      intents := c.2, broadcasts := 1 }
  else if wasManualPause && !settings.resumeOnManualPause then
    { st := st1, intents := c.2, broadcasts := 1 }
  else
    let sel :=
      match specificMedia with
      | some m => (some m, st1.pausedStack)
      | none =>
          let exclude := Option.map (fun m : MediaRec => m.mediaId) stoppedMedia
          findNextAutoResumable exclude st1.pausedStack
    match sel.1 with
    | none =>
        { st := { st1 with pausedStack := sel.2 }, intents := c.2, broadcasts := 1 }
    | some m =>
        { st := { st1 with pausedStack := sel.2, pendingResume := some m },
          intents := c.2, broadcasts := 1 }

/-- `pauseMedia(tabId, frameId, mediaId)`: optimistically mark the registry
entry as not playing and send the pause command. -/
def pauseMedia (tabId frameId : Nat) (mediaId : String) (st : MMState) :
    MMState × List Intent :=
  let reg := alUpdate (tabId, frameId, mediaId)
    (fun v => { v with isPlaying := false }) st.allMedia
  ({ st with allMedia := reg }, [Intent.pauseIntent tabId frameId mediaId])

/-- `pauseActiveMedia()`: route a pause to the desktop link or to the owning
tab.  (A local record always carries its tab coordinates; the defensive
fall-through models the messaging call failing on `undefined`.) -/
def pauseActiveMedia (st : MMState) : MMState × List Intent :=
  match st.activeMedia with
  | none => (st, [])
  | some act =>
      if isDesktopMedia act then
        (st, [Intent.desktopControl "pause" act.mediaId])
      else match act.tabId, act.frameId with
        | some t, some f => pauseMedia t f act.mediaId st
        | _, _ => (st, [])

/-- The heartbeat update applied by `handleMediaPlay` when the playing media
is already the active one. -/
def playHeartbeat (now : Nat) (data : EventData) (a : MediaRec) : MediaRec :=
  { a with
    lastHeartbeat := now
    title := jsOrS data.title a.title
    cover := jsOrS data.cover a.cover
    duration := jsOrN data.duration a.duration
    currentTime := jsOrN data.currentTime a.currentTime }

/-- Is the event's identity the currently active media? -/
def sameAsActive (st : MMState) (tabId frameId : Nat) (mediaId : String) : Bool :=
  match st.activeMedia with
  | none => false
  | some a => matchesEvent a tabId frameId mediaId

/-- The rapid-play cooldown check of `handleMediaPlay`. -/
def rapidPlay (now : Nat) (mediaId : String) (st : MMState) : Bool :=
  match (st.recentPlayEvents.find? fun p => decide (p.1 = mediaId)).map (·.2) with
  | none => false
  | some last => decide (now - last < RAPID_PLAY_COOLDOWN)

/-- The ghost-play check of `handleMediaPlay`: the same identity sits in the
paused stack, extension-paused, with a `pausedAt` within the last 500 ms. -/
def recentlyExtPaused (now tabId frameId : Nat) (mediaId : String)
    (st : MMState) : Bool :=
  st.pausedStack.any fun m =>
    matchesEvent m tabId frameId mediaId && !m.manuallyPaused &&
      (match m.pausedAt with
       | none => false
       | some pa => decide (now - pa < RECENTLY_PAUSED_WINDOW))

/-- Record the play event and prune entries older than three seconds. -/
def trackPlayEvent (now : Nat) (mediaId : String)
    (l : List (String × Nat)) : List (String × Nat) :=
  ((mediaId, now) :: l.filter fun p => decide (p.1 ≠ mediaId)).filter
    fun p => decide (now - p.2 ≤ RECENT_PLAY_RETENTION)

/-- Registry refresh done by `handleMediaPlay` for the playing key. -/
def updatePlayingInfo (k : MediaKey) (data : EventData)
    (l : List (MediaKey × MediaRec)) : List (MediaKey × MediaRec) :=
  alUpdate k (fun v => { v with
    isPlaying := true
    title := jsOrS data.title v.title
    cover := jsOrS data.cover v.cover
    currentTime := data.currentTime
    duration := jsOrN data.duration v.duration }) l

/-- The `manuallyPaused` flag attached to a displaced desktop active media:
taken from the desktop snapshot's paused list when marked manual there. -/
def desktopManualFlag (dsnap : DeskSnap) (act : MediaRec) : Bool :=
  isDesktopMedia act &&
    (match dsnap.pausedList.find? fun m => decide (m.mediaId = act.mediaId) with
     | some inPaused => inPaused.manuallyPaused
     | none => false)

/-- The tail of `handleMediaPlay` past the blacklist gate: registry refresh,
desktop notify, displacement of the previous active media (with the
rapid-scroll same-tab exception), stack cleanup for the played identity, and
promotion of the new active media. -/
def promotePlay (now : Nat) (dsnap : DeskSnap) (tabId frameId : Nat)
    (data : EventData) (tab : TabInfo) (url title : String)
    (c : MMState × List Intent) : MMResult :=
  let st3 := { c.1 with
    allMedia := updatePlayingInfo (tabId, frameId, data.mediaId) data c.1.allMedia }
  let notif := [Intent.notifyDesktopPlay data.mediaId title url]
  let step4 : MMState × List Intent :=
    match st3.activeMedia with
    | none => (st3, [])
    | some act =>
        let isSameTab := decide (act.tabId = some tabId)
        let isRapidScroll := isSameTab && decide (act.startedAt ≠ 0) &&
          decide (now - act.startedAt < SCROLL_COOLDOWN)
        if isRapidScroll then
          let stack := st3.pausedStack.filter fun m => !sameIdent m act
          ({ st3 with pausedStack := stack }, [])
        else
          let p := pauseActiveMedia st3
          let mp := desktopManualFlag dsnap act
          let entry : MediaRec :=
            { act with manuallyPaused := mp, expired := false, pausedAt := some now }
          let stack := entry :: (p.1.pausedStack.filter fun m => !sameIdent m act)
          ({ p.1 with pausedStack := stack }, p.2)
  let st4 := step4.1
  let stack5 :=
    st4.pausedStack.filter fun m => !matchesEvent m tabId frameId data.mediaId
  let st5 := { st4 with pausedStack := stack5 }
  let newActive : MediaRec :=
    { tabId := some tabId, frameId := some frameId, mediaId := data.mediaId
      adapter := jsOrS data.adapter "generic", url := url, title := title
      favicon := tab.favIconUrl, cover := data.cover
      duration := data.duration, currentTime := data.currentTime
      startedAt := now, lastHeartbeat := now }
  { st := { st5 with activeMedia := some newActive }
    intents := c.2 ++ notif ++ step4.2, broadcasts := 1 }

/-- `handleMediaPlay(tabId, frameId, data, tab)` — the core play transition of
the current `MediaManager` revision.  Order of stages, as in the source:
unknown filter, heartbeat for the already-active identity, per-media rapid
cooldown, recently-extension-paused filter, play-event tracking, cancellation
of any pending resume (re-queueing its target), the blacklist gate, and the
promotion tail (`promotePlay`). -/
def handleMediaPlay (now : Nat) (settings : Settings) (dsnap : DeskSnap)
    (tabId frameId : Nat) (data : EventData) (tab : TabInfo)
    (st : MMState) : MMResult :=
  let url := tab.url
  let title := jsOrS data.title (jsOrS tab.title "Unknown")
  if isUnknownMedia url title then { st := st }
  else if sameAsActive st tabId frameId data.mediaId then
    match st.activeMedia with
    | some a => { st := { st with activeMedia := some (playHeartbeat now data a) } }
    | none => { st := st }
  else if rapidPlay now data.mediaId st then { st := st }
  else if recentlyExtPaused now tabId frameId data.mediaId st then { st := st }
  else
    let st1 := { st with
      recentPlayEvents := trackPlayEvent now data.mediaId st.recentPlayEvents }
    let c := cancelPendingResume true st1
    let st2 := c.1
    if isBlacklisted settings url then { st := st2, intents := c.2 }
    else promotePlay now dsnap tabId frameId data tab url title c

/-- `handleMediaRegistered(tabId, frameId, data, tab)`. -/
def handleMediaRegistered (tabId frameId : Nat) (settings : Settings)
    (data : EventData) (tab : TabInfo) (st : MMState) : MMResult :=
  let url := tab.url
  let title := jsOrS data.title (jsOrS tab.title "Unknown")
  if isUnknownMedia url title then { st := st }
  else if isBlacklisted settings url then { st := st }
  else
    let rec0 : MediaRec :=
      { tabId := some tabId, frameId := some frameId, mediaId := data.mediaId
        adapter := jsOrS data.adapter "generic", url := url, title := title
        favicon := tab.favIconUrl, cover := data.cover
        duration := data.duration, currentTime := data.currentTime
        isPlaying := data.isPlaying, hasSkip := data.hasSkip
        mediaType := jsOrS data.mediaType "unknown" }
    { st := { st with
        allMedia := alSet (tabId, frameId, data.mediaId) rec0 st.allMedia }
      broadcasts := 1 }

/-- The tail of `handleMediaUnregistered` after the pending-resume
cancellation: drop the identity from the paused stack and, if it was the
active media, clear the slot and invoke the resume scheduler. -/
def resumeAfterUnregister (now : Nat) (settings : Settings)
    (tabId frameId : Nat) (data : EventData) (c : MMState × List Intent) :
    MMResult :=
  let st3 := { c.1 with pausedStack :=
    c.1.pausedStack.filter fun m => !matchesEvent m tabId frameId data.mediaId }
  match st3.activeMedia with
  | some act =>
      if matchesEvent act tabId frameId data.mediaId then
        let r := scheduleResumePrevious now settings none (some act) false
          { st3 with activeMedia := none }
        { st := r.st, intents := c.2 ++ r.intents, broadcasts := r.broadcasts + 1 }
      else { st := st3, intents := c.2, broadcasts := 1 }
  | none => { st := st3, intents := c.2, broadcasts := 1 }

/-- `handleMediaUnregistered(tabId, frameId, data)`: purge the registry entry,
volumes and play-event tracking, cancel a pending resume aimed at this media
(without re-queueing), drop it from the paused stack, and if it was active,
clear the slot and invoke the resume scheduler. -/
def handleMediaUnregistered (now : Nat) (settings : Settings)
    (tabId frameId : Nat) (data : EventData) (st : MMState) : MMResult :=
  let st1 := { st with
    allMedia := alDel (tabId, frameId, data.mediaId) st.allMedia
    originalVolumes := st.originalVolumes.filter fun p => decide (p.1 ≠ data.mediaId)
    recentPlayEvents := st.recentPlayEvents.filter fun p => decide (p.1 ≠ data.mediaId) }
  let c :=
    match st1.pendingResume with
    | some p =>
        if p.mediaId = data.mediaId then cancelPendingResume false st1 else (st1, [])
    | none => (st1, [])
  resumeAfterUnregister now settings tabId frameId data c

/-- Mark the first stack entry with this identity as manually paused. -/
def markFirstManual (tabId frameId : Nat) (mediaId : String) :
    List MediaRec → List MediaRec
  | [] => []
  | m :: rest =>
      if matchesEvent m tabId frameId mediaId then
        { m with manuallyPaused := true } :: rest
      else m :: markFirstManual tabId frameId mediaId rest

/-- `handleMediaPause(tabId, frameId, data)`. -/
def handleMediaPause (now : Nat) (settings : Settings) (tabId frameId : Nat)
    (data : EventData) (st : MMState) : MMResult :=
  let k : MediaKey := (tabId, frameId, data.mediaId)
  let reg := alUpdate k (fun v =>
    { v with isPlaying := false, currentTime := jsOrN data.currentTime v.currentTime })
    st.allMedia
  let st0 := { st with allMedia := reg }
  match st0.activeMedia with
  | some act =>
      if matchesEvent act tabId frameId data.mediaId then
        let pausedMedia : MediaRec :=
          { act with
            currentTime := jsOrN data.currentTime act.currentTime
            manuallyPaused := data.manual }
        let stack := pausedMedia ::
          (st0.pausedStack.filter fun m => !matchesEvent m tabId frameId data.mediaId)
        let r := scheduleResumePrevious now settings none (some act) data.manual
          { st0 with pausedStack := stack, activeMedia := none }
        { st := r.st, intents := r.intents, broadcasts := r.broadcasts + 1 }
      else handleMediaPauseNonActive now tabId frameId data st0
  | none => handleMediaPauseNonActive now tabId frameId data st0
where
  /-- The non-active branch: update or insert the paused entry in place. -/
  handleMediaPauseNonActive (_now : Nat) (tabId frameId : Nat) (data : EventData)
      (st0 : MMState) : MMResult :=
    match alGet (tabId, frameId, data.mediaId) st0.allMedia with
    | none => { st := st0, broadcasts := 1 }
    | some mediaInfo =>
        if st0.pausedStack.any fun m => matchesEvent m tabId frameId data.mediaId then
          if data.manual then
            { st := { st0 with pausedStack :=
                markFirstManual tabId frameId data.mediaId st0.pausedStack }
              broadcasts := 1 }
          else { st := st0, broadcasts := 1 }
        else
          let entry : MediaRec :=
            { mediaInfo with
              currentTime := jsOrN data.currentTime mediaInfo.currentTime
              manuallyPaused := data.manual }
          { st := { st0 with pausedStack := st0.pausedStack ++ [entry] }
            broadcasts := 1 }

/-- `handleTimeUpdate(tabId, frameId, data)` — heartbeat and position update. -/
def handleTimeUpdate (now : Nat) (tabId frameId : Nat) (data : EventData)
    (st : MMState) : MMResult :=
  let k : MediaKey := (tabId, frameId, data.mediaId)
  let reg := alUpdate k (fun v =>
    { v with
      currentTime := data.currentTime
      duration := jsOrN data.duration v.duration
      lastHeartbeat := now }) st.allMedia
  let st1 := { st with allMedia := reg }
  match st1.activeMedia with
  | some act =>
      if matchesEvent act tabId frameId data.mediaId then
        let act1 :=
          { act with
            currentTime := data.currentTime
            duration := jsOrN data.duration act.duration
            playbackRate := jsOrN data.playbackRate 1
            lastHeartbeat := now }
        { st := { st1 with activeMedia := some act1 }, broadcasts := 1 }
      else { st := st1 }
  | none => { st := st1 }

/-- `handleMediaEnded(tabId, frameId, data)`. -/
def handleMediaEnded (now : Nat) (settings : Settings) (tabId frameId : Nat)
    (data : EventData) (st : MMState) : MMResult :=
  let k : MediaKey := (tabId, frameId, data.mediaId)
  let st1 := { st with
    allMedia := alUpdate k (fun v => { v with isPlaying := false }) st.allMedia }
  match st1.activeMedia with
  | some act =>
      if matchesEvent act tabId frameId data.mediaId then
        let r := scheduleResumePrevious now settings none (some act) false
          { st1 with activeMedia := none }
        { st := r.st, intents := r.intents, broadcasts := r.broadcasts + 1 }
      else { st := st1, broadcasts := 1 }
  | none => { st := st1, broadcasts := 1 }

/-- `handleTabClosed(tabId)`: evict all media of the tab. -/
def handleTabClosed (now : Nat) (settings : Settings) (tabId : Nat)
    (st : MMState) : MMResult :=
  let stopped : Option MediaRec :=
    match st.activeMedia with
    | some act => if act.tabId = some tabId then some act else none
    | none => none
  let removedIds :=
    (st.allMedia.filter fun p => decide (p.2.tabId = some tabId)).map
      fun p => p.2.mediaId
  let st1 := { st with
    allMedia := st.allMedia.filter fun p => decide (p.2.tabId ≠ some tabId)
    originalVolumes := st.originalVolumes.filter fun q => !(removedIds.contains q.1)
    pausedStack := st.pausedStack.filter fun m =>
      decide (m.tabId ≠ some tabId) || isDesktopMedia m }
  let c :=
    match st1.pendingResume with
    | some p => if p.tabId = some tabId then cancelPendingResume false st1 else (st1, [])
    | none => (st1, [])
  let st2 := c.1
  match stopped with
  | some sm =>
      let r := scheduleResumePrevious now settings none (some sm) false
        { st2 with activeMedia := none }
      { st := r.st, intents := c.2 ++ r.intents, broadcasts := r.broadcasts + 1 }
  | none => { st := st2, intents := c.2, broadcasts := 1 }

/-- Remove the first entry satisfying `p` (`findIndex` + `splice(idx, 1)`). -/
def spliceFirst (p : MediaRec → Bool) : List MediaRec → List MediaRec
  | [] => []
  | m :: rest => if p m then rest else m :: spliceFirst p rest

/-- Mark the first stack entry with this `mediaId` as manually paused when it
is not already so (`onDesktopMediaPause`, non-active branch). -/
def markFirstManualById (mediaId : String) : List MediaRec → List MediaRec
  | [] => []
  | m :: rest =>
      if m.mediaId = mediaId then
        if m.manuallyPaused then m :: rest
        else { m with manuallyPaused := true } :: rest
      else m :: markFirstManualById mediaId rest

/-- `controlDesktopMedia(mediaId, action)` — popup control for desktop media. -/
def controlDesktopMedia (now : Nat) (settings : Settings) (mediaId action : String)
    (st : MMState) : MMResult :=
  if action = "play" then
    let c := cancelPendingResume true st
    let stack := spliceFirst (fun m => decide (m.mediaId = mediaId)) c.1.pausedStack
    { st := { c.1 with pausedStack := stack }
      intents := c.2 ++ [Intent.desktopControl "play" mediaId]
      broadcasts := 1 }
  else if action = "pause" then
    let step : Option MediaRec × MMState :=
      match st.activeMedia with
      | some act =>
          if act.mediaId = mediaId then
            let top : MediaRec := { act with manuallyPaused := true }
            let stack := top ::
              (st.pausedStack.filter fun m => decide (m.mediaId ≠ mediaId))
            (some act, { st with pausedStack := stack, activeMedia := none })
          else (none, st)
      | none => (none, st)
    let r := scheduleResumePrevious now settings none step.1 true step.2
    { st := r.st, intents := Intent.desktopControl "pause" mediaId :: r.intents
      broadcasts := r.broadcasts + 1 }
  else if action = "skip" then
    { st := st, intents := [Intent.desktopControl "skip" mediaId], broadcasts := 1 }
  else if action = "prev" then
    { st := st, intents := [Intent.desktopControl "prev" mediaId], broadcasts := 1 }
  else { st := st, broadcasts := 1 }

/-- Popup control payload. -/
structure ControlData where
  tabId : Nat := 0
  frameId : Nat := 0
  mediaId : String := ""
  action : String := ""
deriving Repr, DecidableEq

/-- `controlMedia(data)` — popup control; `desktop-` ids are routed to
`controlDesktopMedia`. -/
def controlMedia (now : Nat) (settings : Settings) (data : ControlData)
    (st : MMState) : MMResult :=
  if decide (data.mediaId ≠ "") && strStarts data.mediaId "desktop-" then
    controlDesktopMedia now settings data.mediaId data.action st
  else if data.action = "play" then
    let c := cancelPendingResume true st
    let stack :=
      spliceFirst (fun m => matchesEvent m data.tabId data.frameId data.mediaId)
        c.1.pausedStack
    { st := { c.1 with pausedStack := stack }
      intents := c.2 ++ [Intent.playIntent data.tabId data.frameId data.mediaId]
      broadcasts := 1 }
  else if data.action = "pause" then
    let step : Option MediaRec × MMState :=
      match st.activeMedia with
      | some act =>
          if matchesEvent act data.tabId data.frameId data.mediaId then
            let top : MediaRec := { act with manuallyPaused := true }
            let stack := top ::
              (st.pausedStack.filter fun m =>
                !matchesEvent m data.tabId data.frameId data.mediaId)
            (some act, { st with pausedStack := stack, activeMedia := none })
          else (none, st)
      | none => (none, st)
    let r := scheduleResumePrevious now settings none step.1 true step.2
    { st := r.st
      intents := Intent.pauseIntent data.tabId data.frameId data.mediaId :: r.intents
      broadcasts := r.broadcasts + 1 }
  else if data.action = "skip" then
    { st := st, intents := [Intent.skipIntent data.tabId data.frameId data.mediaId]
      broadcasts := 1 }
  else if data.action = "prev" then
    { st := st, intents := [Intent.prevIntent data.tabId data.frameId data.mediaId]
      broadcasts := 1 }
  else { st := st, broadcasts := 1 }

/-- A desktop media object as delivered over the wire (no tab coordinates). -/
structure DesktopEvt where
  mediaId : String := ""
  title : String := ""
  cover : String := ""
  duration : Nat := 0
  currentTime : Nat := 0
  isPlaying : Bool := false
  manuallyPaused : Bool := false
  isDesktop : Bool := true
deriving Repr, DecidableEq

/-- Lift a wire desktop media object into the engine's record shape. -/
def DesktopEvt.toRec (d : DesktopEvt) : MediaRec :=
  { mediaId := d.mediaId, title := d.title, cover := d.cover
    duration := d.duration, currentTime := d.currentTime
    isPlaying := d.isPlaying, manuallyPaused := d.manuallyPaused
    isDesktop := d.isDesktop }

/-- `onDesktopMediaPlay(desktopMedia)`. -/
def onDesktopMediaPlay (now : Nat) (d : MediaRec) (st : MMState) : MMResult :=
  let c := cancelPendingResume false st
  let step :=
    match c.1.activeMedia with
    | some act =>
        if act.mediaId ≠ d.mediaId then
          let stack1 := c.1.pausedStack.filter fun m => !sameIdent m act
          let p := pauseActiveMedia { c.1 with pausedStack := stack1 }
          let entry : MediaRec :=
            { act with manuallyPaused := false, expired := false, pausedAt := some now }
          ({ p.1 with pausedStack := entry :: p.1.pausedStack }, p.2)
        else (c.1, [])
    | none => (c.1, [])
  let st1 := step.1
  let st2 := { st1 with
    pausedStack := st1.pausedStack.filter fun m => decide (m.mediaId ≠ d.mediaId)
    activeMedia := some { d with startedAt := now, lastHeartbeat := now } }
  { st := st2, intents := c.2 ++ step.2, broadcasts := 1 }

/-- `onDesktopMediaPause(desktopMedia)`. -/
def onDesktopMediaPause (now : Nat) (settings : Settings) (d : MediaRec)
    (st : MMState) : MMResult :=
  match st.activeMedia with
  | some act =>
      if act.mediaId = d.mediaId then
        let stack := d ::
          (st.pausedStack.filter fun m => decide (m.mediaId ≠ d.mediaId))
        let r := scheduleResumePrevious now settings none (some act) d.manuallyPaused
          { st with pausedStack := stack, activeMedia := none }
        { st := r.st, intents := r.intents, broadcasts := r.broadcasts + 1 }
      else if d.manuallyPaused then
        { st := { st with pausedStack := markFirstManualById d.mediaId st.pausedStack }
          broadcasts := 1 }
      else { st := st, broadcasts := 1 }
  | none =>
      if d.manuallyPaused then
        { st := { st with pausedStack := markFirstManualById d.mediaId st.pausedStack }
          broadcasts := 1 }
      else { st := st, broadcasts := 1 }

/-- `onDesktopDisconnected()`: drop all desktop media from the engine. -/
def onDesktopDisconnected (st : MMState) : MMResult :=
  let active :=
    match st.activeMedia with
    | some act => if isDesktopMedia act then none else some act
    | none => none
  let stack := st.pausedStack.filter fun m => !isDesktopMedia m
  { st := { st with activeMedia := active, pausedStack := stack }
    broadcasts := 1 }

/-! ## Public operations and reachability -/

/-- One public operation of the engine with its external inputs (the event's
timestamp, the hot-reloadable settings at that tick, the desktop snapshot). -/
inductive Op where
  | register (tabId frameId : Nat) (settings : Settings) (data : EventData)
      (tab : TabInfo)
  | unregister (now : Nat) (settings : Settings) (tabId frameId : Nat)
      (data : EventData)
  | play (now : Nat) (settings : Settings) (dsnap : DeskSnap)
      (tabId frameId : Nat) (data : EventData) (tab : TabInfo)
  | pause (now : Nat) (settings : Settings) (tabId frameId : Nat)
      (data : EventData)
  | ended (now : Nat) (settings : Settings) (tabId frameId : Nat)
      (data : EventData)
  | timeUpdate (now : Nat) (tabId frameId : Nat) (data : EventData)
  | tabClosed (now : Nat) (settings : Settings) (tabId : Nat)
  | control (now : Nat) (settings : Settings) (data : ControlData)
  | desktopPlay (now : Nat) (d : DesktopEvt)
  | desktopPause (now : Nat) (settings : Settings) (d : DesktopEvt)
  | desktopGone
  | cancel (putBackInStack : Bool)
deriving Repr

/-- Run one operation, returning the full result. -/
def runOp (st : MMState) : Op → MMResult
  | .register tabId frameId settings data tab =>
      handleMediaRegistered tabId frameId settings data tab st
  | .unregister now settings tabId frameId data =>
      handleMediaUnregistered now settings tabId frameId data st
  | .play now settings dsnap tabId frameId data tab =>
      handleMediaPlay now settings dsnap tabId frameId data tab st
  | .pause now settings tabId frameId data =>
      handleMediaPause now settings tabId frameId data st
  | .ended now settings tabId frameId data =>
      handleMediaEnded now settings tabId frameId data st
  | .timeUpdate now tabId frameId data => handleTimeUpdate now tabId frameId data st
  | .tabClosed now settings tabId => handleTabClosed now settings tabId st
  | .control now settings data => controlMedia now settings data st
  | .desktopPlay now d => onDesktopMediaPlay now d.toRec st
  | .desktopPause now settings d => onDesktopMediaPause now settings d.toRec st
  | .desktopGone => onDesktopDisconnected st
  | .cancel b => { st := (cancelPendingResume b st).1
                   intents := (cancelPendingResume b st).2 }

/-- Apply one operation to the state. -/
def applyOp (st : MMState) (op : Op) : MMState := (runOp st op).st

/-- Run a sequence of public operations from a state. -/
def runOps (st : MMState) (ops : List Op) : MMState := ops.foldl applyOp st

/-! ## Resume playback with fade-in (`playMediaWithFadeIn`) -/

/-- Number of fade steps (`const fadeSteps = 20`). -/
def FADE_STEPS : Nat := 20

/-- The volume computed at fade step `k` (1-based):
`Math.min(1, startVolume + ((1 - startVolume) / fadeSteps) * step)`. -/
def fadeVolume (s : ℚ) (k : Nat) : ℚ :=
  min 1 (s + ((1 - s) / (FADE_STEPS : ℚ)) * (k : ℚ))

/-- The clamp applied by `setMediaVolume` to every outgoing volume. -/
def clampVolume (v : ℚ) : ℚ := max 0 (min 1 v)

/-- The volumes issued by the fade interval from step `start`, with `fuel`
ticks remaining.  At each tick the callback first checks that the target is
still registered (`alive`) and silently stops otherwise; then it increments
the step, computes the next volume and issues it. -/
def fadeLoop (alive : Nat → Bool) (s : ℚ) : Nat → Nat → List ℚ
  | _, 0 => []
  | start, fuel + 1 =>
      if alive start then
        clampVolume (fadeVolume s start) :: fadeLoop alive s (start + 1) fuel
      else []

/-- All volumes issued by a complete run of the fade interval. -/
def fadeEmits (alive : Nat → Bool) (s : ℚ) : List ℚ := fadeLoop alive s 1 FADE_STEPS

/-- The intent trace of `playMediaWithFadeIn(media)` on a browser source.
`alive k` tells whether the target's registry entry still exists at fade tick
`k` (tick `0` stands for the set-volume calls surrounding the play command).
Stage order as in the source: desktop media are resumed with a single desktop
`play` control; with fade-in disabled a single `play` intent is sent; else
`setVolume(startVolume)`, `play`, `setVolume(startVolume)` again, then the
fade interval. -/
def playMediaWithFadeIn (settings : Settings) (m : MediaRec)
    (alive : Nat → Bool) : List Intent :=
  if isDesktopMedia m then [Intent.desktopControl "play" m.mediaId]
  else match m.tabId, m.frameId with
    | some t, some f =>
        if settings.fadeInDuration ≤ 0 then [Intent.playIntent t f m.mediaId]
        else
          let s := settings.fadeInStartVolume
          let pre := if alive 0 then
            [Intent.setVolumeIntent t f m.mediaId (clampVolume s)] else []
          pre ++ [Intent.playIntent t f m.mediaId] ++ pre ++
            (fadeEmits alive s).map fun v => Intent.setVolumeIntent t f m.mediaId v
    | _, _ => []

/-! ## Desktop connector (`desktop-connector.js`) -/

/-- `DESKTOP_CONFIG` timing constants. -/
structure DesktopConfig where
  MAX_RECONNECT_ATTEMPTS : Nat := 10
  RECONNECT_DELAY_BASE : ℚ := 1000
  RECONNECT_DELAY_MAX : ℚ := 30000
  CONNECTION_CHECK_INTERVAL : Nat := 10000
  PAUSE_DEBOUNCE_DELAY : Nat := 1000
  PING_INTERVAL : Nat := 15000
  PING_TIMEOUT : Nat := 5000
deriving Repr, DecidableEq

/-- The values from `desktop-connector.js`. -/
def DESKTOP_CONFIG : DesktopConfig := {}

/-- Wire snapshot delivered by a `DESKTOP_STATE_UPDATE` message. -/
structure DesktopStateMsg where
  activeMedia : Option DesktopEvt := none
  pausedList : List DesktopEvt := []
deriving Repr, DecidableEq

/-- Desktop connector state (the fields the modelled behaviour touches). -/
structure DCState where
  connected : Bool := false
  reconnectAttempts : Nat := 0
  reconnectDelay : ℚ := DESKTOP_CONFIG.RECONNECT_DELAY_BASE
  reconnectTimer : Option ℚ := none
  desktopActive : Option DesktopEvt := none
  desktopPaused : List DesktopEvt := []
  pauseDebounce : Option (DesktopEvt × Nat) := none
deriving Repr, DecidableEq

/-- Calls the connector makes into the media manager. -/
inductive EngineCall where
  | onPlay (d : DesktopEvt)
  | onPause (d : DesktopEvt)
  | progressOnly (d : DesktopEvt)
  | broadcast
deriving Repr, DecidableEq

/-- `clearPauseDebounce()`. -/
def clearPauseDebounce (st : DCState) : DCState := { st with pauseDebounce := none }

/-- `handleStateUpdate(state)`: diff the previous desktop snapshot against the
new one and translate the difference into engine calls.  A disappearing
active media does not call the engine's pause handler; it arms the pause
debounce timer instead. -/
def handleStateUpdate (msg : DesktopStateMsg) (st : DCState) :
    DCState × List EngineCall :=
  let prevActive := st.desktopActive
  let st1 := { st with desktopActive := msg.activeMedia
                       desktopPaused := msg.pausedList }
  let step : DCState × List EngineCall :=
    match msg.activeMedia, prevActive with
    | some n, none => (clearPauseDebounce st1, [EngineCall.onPlay n])
    | some n, some p =>
        let st2 := clearPauseDebounce st1
        if n.title ≠ p.title ∨ n.mediaId ≠ p.mediaId then
          (st2, [EngineCall.onPlay n])
        else if n.isPlaying ≠ p.isPlaying ∧ n.isPlaying = false then
          (st2, [EngineCall.onPause n])
        else if n.isPlaying = false then (st2, [EngineCall.onPause n])
        else (st2, [EngineCall.progressOnly n])
    | none, some p =>
        ({ st1 with pauseDebounce := some (p, DESKTOP_CONFIG.PAUSE_DEBOUNCE_DELAY) },
          [])
    | none, none => (st1, [])
  (step.1, step.2 ++ [EngineCall.broadcast])

/-- The pause-debounce timer firing: re-check that the desktop is still
inactive before reporting the pause; a desktop that became active again
absorbs the stop. -/
def pauseDebounceFire (st : DCState) : DCState × List EngineCall :=
  match st.pauseDebounce with
  | none => (st, [])
  | some p =>
      let st1 := { st with pauseDebounce := none }
      if st.desktopActive = none then (st1, [EngineCall.onPause p.1])
      else (st1, [])

/-- `handleDisconnect()`: tear down connection state; while fewer than
`MAX_RECONNECT_ATTEMPTS` attempts are outstanding, increment the counter and
arm a reconnect timer with exponential backoff
(`min(reconnectDelay * 1.5^(attempts-1), RECONNECT_DELAY_MAX)`); otherwise
reset the counter and leave reconnection to the periodic connection check. -/
def handleDisconnect (st : DCState) : DCState :=
  let st1 := { st with connected := false, pauseDebounce := none
                       desktopActive := none, desktopPaused := [] }
  if st1.reconnectAttempts < DESKTOP_CONFIG.MAX_RECONNECT_ATTEMPTS then
    let attempts := st1.reconnectAttempts + 1
    let delay := min (st1.reconnectDelay * (3 / 2 : ℚ) ^ (attempts - 1))
      DESKTOP_CONFIG.RECONNECT_DELAY_MAX
    { st1 with reconnectAttempts := attempts, reconnectTimer := some delay }
  else { st1 with reconnectAttempts := 0 }

/-- The delay the claim attributes to the `k`-th consecutive attempt. -/
def reconnectDelayFor (k : Nat) : ℚ := min (1000 * (3 / 2 : ℚ) ^ (k - 1)) 30000

/-! ## Basic lemmas about the selection function -/

theorem findNextAutoResumable_fst (exclude : Option String) :
    ∀ stack : List MediaRec,
      (findNextAutoResumable exclude stack).1 = stack.find? (eligible exclude)
  | [] => rfl
  | m :: rest => by
      by_cases h : eligible exclude m
      · simp [findNextAutoResumable, h, List.find?_cons_of_pos]
      · rw [Bool.not_eq_true] at h
        simp [findNextAutoResumable, h, List.find?_cons_of_neg,
          findNextAutoResumable_fst exclude rest]

theorem findNextAutoResumable_snd (exclude : Option String) :
    ∀ stack : List MediaRec,
      (findNextAutoResumable exclude stack).2 = stack.eraseP (eligible exclude)
  | [] => rfl
  | m :: rest => by
      by_cases h : eligible exclude m
      · simp [findNextAutoResumable, h, List.eraseP_cons_of_pos]
      · rw [Bool.not_eq_true] at h
        simp [findNextAutoResumable, h, List.eraseP_cons_of_neg,
          findNextAutoResumable_snd exclude rest]

/-- Paused entries used by the resume-ordering scenario of the spec. -/
def exA : MediaRec :=
  { tabId := some 1, frameId := some 0, mediaId := "a", title := "A" }

/-- Manual entry of the scenario. -/
def exB : MediaRec :=
  { tabId := some 1, frameId := some 0, mediaId := "b", title := "B"
    manuallyPaused := true }

/-- Third entry of the scenario. -/
def exC : MediaRec :=
  { tabId := some 1, frameId := some 0, mediaId := "c", title := "C" }

/-- The just-stopped media of the scenario. -/
def exStop : MediaRec :=
  { tabId := some 9, frameId := some 0, mediaId := "stopped" }

theorem cancelPendingResume_pending (b : Bool) (st : MMState) :
    (cancelPendingResume b st).1.pendingResume = none := by
  cases h : st.pendingResume <;> simp [cancelPendingResume, h]

theorem cancelPendingResume_active (b : Bool) (st : MMState) :
    (cancelPendingResume b st).1.activeMedia = st.activeMedia := by
  cases h : st.pendingResume <;> simp [cancelPendingResume, h]

theorem cancelPendingResume_allMedia (b : Bool) (st : MMState) :
    (cancelPendingResume b st).1.allMedia = st.allMedia := by
  cases h : st.pendingResume <;> simp [cancelPendingResume, h]

theorem cancelPendingResume_stack_false (st : MMState) :
    (cancelPendingResume false st).1.pausedStack = st.pausedStack := by
  cases h : st.pendingResume <;> simp [cancelPendingResume, h]

theorem cancelPendingResume_stack_requeue (st : MMState) (p : MediaRec)
    (hp : st.pendingResume = some p)
    (habs : st.pausedStack.any (fun m => sameIdent m p) = false) :
    (cancelPendingResume true st).1.pausedStack = p :: st.pausedStack := by
  simp [cancelPendingResume, hp, habs]

/-- **C3** — `findNextAutoResumable` (with no specific media given) returns
and removes the first paused entry with `manuallyPaused = false` and
`expired = false` whose `mediaId` differs from the just-stopped record's
`mediaId`; when nothing is eligible the scheduler arms no resume; on the stack
`[A(manual=false), B(manual=true), C(manual=false)]` the scheduler selects
`A` and never `B`. -/
theorem c3_resume_selection :
    (∀ (exclude : Option String) (stack : List MediaRec),
        (findNextAutoResumable exclude stack).1 = stack.find? (eligible exclude) ∧
        (findNextAutoResumable exclude stack).2 = stack.eraseP (eligible exclude)) ∧
    (∀ (now : Nat) (settings : Settings) (stopped : Option MediaRec) (st : MMState),
        settings.autoExpireSeconds = 0 →
        (scheduleResumePrevious now settings none stopped false st).st.pendingResume =
          (findNextAutoResumable (Option.map (fun m : MediaRec => m.mediaId) stopped)
            (cancelPendingResume true st).1.pausedStack).1 ∧
        (scheduleResumePrevious now settings none stopped false st).st.pausedStack =
          (findNextAutoResumable (Option.map (fun m : MediaRec => m.mediaId) stopped)
            (cancelPendingResume true st).1.pausedStack).2) ∧
    ((scheduleResumePrevious 0 {} none (some exStop) false
        { pausedStack := [exA, exB, exC] }).st.pendingResume = some exA ∧
      (scheduleResumePrevious 0 {} none (some exStop) false
        { pausedStack := [exA, exB, exC] }).st.pausedStack = [exB, exC] ∧
      eligible (some exStop.mediaId) exB = false) := by
  refine ⟨fun e s => ⟨findNextAutoResumable_fst e s, findNextAutoResumable_snd e s⟩,
    ?_, by decide⟩
  intro now settings stopped st hA
  have hpend := cancelPendingResume_pending true st
  rcases hsel : findNextAutoResumable
      (Option.map (fun m : MediaRec => m.mediaId) stopped)
      (cancelPendingResume true st).1.pausedStack with ⟨fst, snd⟩
  cases stopped <;> cases fst <;>
    simp_all [scheduleResumePrevious, hA, hsel]

theorem c3_resume_selection_witness :
    (scheduleResumePrevious 5 {} none (some exStop) false
        { pausedStack := [exA, exB, exC] }).st.pendingResume =
      (findNextAutoResumable (Option.map (fun m : MediaRec => m.mediaId) (some exStop))
        (cancelPendingResume true { pausedStack := [exA, exB, exC] }).1.pausedStack).1 :=
  (c3_resume_selection.2.1 5 {} (some exStop) { pausedStack := [exA, exB, exC] } rfl).1

/-- **C9** — on each disconnect, the reconnect delay armed for consecutive
attempt `k` (1 ≤ k ≤ 10) equals `min(1000 · 1.5^(k-1), 30000)` ms, a quantity
nondecreasing in `k` and capped at 30000; once ten attempts are outstanding
the counter resets to zero and no reconnect timer is armed (the timer field is
left untouched), leaving retry to the periodic connection check that runs
every 10000 ms. -/
theorem c9_reconnect_backoff :
    (∀ (st : DCState) (k : Nat), st.reconnectDelay = 1000 →
        st.reconnectAttempts = k - 1 → 1 ≤ k → k ≤ 10 →
        (handleDisconnect st).reconnectTimer = some (reconnectDelayFor k) ∧
        (handleDisconnect st).reconnectAttempts = k) ∧
    (∀ j k : Nat, 1 ≤ j → j ≤ k → reconnectDelayFor j ≤ reconnectDelayFor k) ∧
    (∀ k : Nat, reconnectDelayFor k ≤ 30000) ∧
    (∀ st : DCState, st.reconnectAttempts = 10 →
        (handleDisconnect st).reconnectAttempts = 0 ∧
        (handleDisconnect st).reconnectTimer = st.reconnectTimer) ∧
    DESKTOP_CONFIG.CONNECTION_CHECK_INTERVAL = 10000 := by
  refine ⟨?_, ?_, ?_, ?_, rfl⟩
  · intro st k hdel hatt h1 h10
    have hlt : st.reconnectAttempts < 10 := by omega
    have hk : st.reconnectAttempts + 1 = k := by omega
    simp [handleDisconnect, DESKTOP_CONFIG, hlt, hdel, hk, reconnectDelayFor]
  · intro j k _ hjk
    have hpow : (3 / 2 : ℚ) ^ (j - 1) ≤ (3 / 2 : ℚ) ^ (k - 1) :=
      pow_le_pow_right₀ (by norm_num) (by omega)
    exact min_le_min (by nlinarith) le_rfl
  · intro k
    exact min_le_right _ _
  · intro st h10
    have hlt : ¬ st.reconnectAttempts < 10 := by omega
    simp [handleDisconnect, DESKTOP_CONFIG, hlt]

theorem c9_reconnect_backoff_witness :
    (handleDisconnect { reconnectAttempts := 4 }).reconnectTimer =
      some (reconnectDelayFor 5) ∧ reconnectDelayFor 5 = 10125 / 2 :=
  ⟨(c9_reconnect_backoff.1 { reconnectAttempts := 4 } 5 rfl rfl (by decide)
      (by decide)).1, by norm_num [reconnectDelayFor]⟩

/-- **C6** — when a desktop snapshot turns the active media from non-null to
null, `handleStateUpdate` does not call the engine's desktop-pause handler;
it arms the pause-debounce timer with `PAUSE_DEBOUNCE_DELAY = 1000` ms.  If
new desktop activity is observed before the timer fires, the timer is
cleared and a subsequent firing is a no-op; likewise a firing that finds
`desktopState.activeMedia` non-null reports nothing — so no
`onDesktopMediaPause` call is ever made for that stop. -/
theorem c6_desktop_pause_debounce (st : DCState) (msg1 msg2 : DesktopStateMsg)
    (p d : DesktopEvt) (hprev : st.desktopActive = some p)
    (h1 : msg1.activeMedia = none) (h2 : msg2.activeMedia = some d) :
    (∀ x, EngineCall.onPause x ∉ (handleStateUpdate msg1 st).2) ∧
    (handleStateUpdate msg1 st).1.pauseDebounce =
      some (p, DESKTOP_CONFIG.PAUSE_DEBOUNCE_DELAY) ∧
    DESKTOP_CONFIG.PAUSE_DEBOUNCE_DELAY = 1000 ∧
    (∀ x, EngineCall.onPause x ∉
      (handleStateUpdate msg2 (handleStateUpdate msg1 st).1).2) ∧
    (handleStateUpdate msg2 (handleStateUpdate msg1 st).1).1.pauseDebounce = none ∧
    (pauseDebounceFire (handleStateUpdate msg2 (handleStateUpdate msg1 st).1).1).2
      = [] ∧
    (∀ s : DCState, s.desktopActive ≠ none → (pauseDebounceFire s).2 = []) := by
  refine ⟨?_, ?_, rfl, ?_, ?_, ?_, ?_⟩
  · intro x
    simp [handleStateUpdate, hprev, h1]
  · simp [handleStateUpdate, hprev, h1]
  · intro x
    simp [handleStateUpdate, hprev, h1, h2, clearPauseDebounce]
  · simp [handleStateUpdate, hprev, h1, h2, clearPauseDebounce]
  · simp [pauseDebounceFire, handleStateUpdate, hprev, h1, h2, clearPauseDebounce]
  · intro s hs
    rcases hd : s.pauseDebounce with _ | q
    · simp [pauseDebounceFire, hd]
    · rcases ha : s.desktopActive with _ | a
      · exact absurd ha hs
      · simp [pauseDebounceFire, hd, ha]

theorem c6_desktop_pause_debounce_witness :
    (handleStateUpdate { activeMedia := none }
        { desktopActive := some { mediaId := "desktop-1" } }).1.pauseDebounce =
      some ({ mediaId := "desktop-1" }, DESKTOP_CONFIG.PAUSE_DEBOUNCE_DELAY) ∧
    (pauseDebounceFire
      (handleStateUpdate { activeMedia := some { mediaId := "desktop-1" } }
        (handleStateUpdate { activeMedia := none }
          { desktopActive := some { mediaId := "desktop-1" } }).1).1).2 = [] := by
  have h := c6_desktop_pause_debounce
    { desktopActive := some { mediaId := "desktop-1" } }
    { activeMedia := none } { activeMedia := some { mediaId := "desktop-1" } }
    { mediaId := "desktop-1" } { mediaId := "desktop-1" } rfl rfl rfl
  exact ⟨h.2.1, h.2.2.2.2.2.1⟩

/-! ## Fade arithmetic -/

theorem fadeVolume_affine (s : ℚ) (hs1 : s ≤ 1) (k : Nat) (hk : k ≤ FADE_STEPS) :
    fadeVolume s k = s + ((1 - s) / 20) * k := by
  have h20 : (k : ℚ) ≤ 20 := by
    have : (k : ℚ) ≤ (FADE_STEPS : ℚ) := by exact_mod_cast hk
    simpa [FADE_STEPS] using this
  have hx : s + ((1 - s) / 20) * k ≤ 1 := by
    nlinarith [mul_nonneg (sub_nonneg.mpr hs1) (sub_nonneg.mpr h20)]
  simp only [fadeVolume, FADE_STEPS]
  rw [min_eq_right]
  · norm_num
  · simpa using hx

theorem fadeVolume_nonneg (s : ℚ) (hs0 : 0 ≤ s) (hs1 : s ≤ 1) (k : Nat) :
    0 ≤ fadeVolume s k := by
  simp only [fadeVolume]
  have h : (0 : ℚ) ≤ (1 - s) / (FADE_STEPS : ℚ) * k :=
    mul_nonneg (div_nonneg (by linarith) (by norm_num [FADE_STEPS]))
      (by positivity)
  exact le_min (by norm_num) (by linarith)

theorem fadeVolume_le_one (s : ℚ) (k : Nat) : fadeVolume s k ≤ 1 :=
  min_le_left _ _

theorem clampVolume_of_nonneg (v : ℚ) (h0 : 0 ≤ v) (h1 : v ≤ 1) :
    clampVolume v = v := by
  unfold clampVolume
  rw [min_eq_right h1, max_eq_right h0]

theorem fadeVolume_last (s : ℚ) : fadeVolume s FADE_STEPS = 1 := by
  unfold fadeVolume FADE_STEPS
  norm_num

theorem fadeLoop_true (s : ℚ) : ∀ (fuel start : Nat),
    fadeLoop (fun _ => true) s start fuel =
      (List.range fuel).map fun i => clampVolume (fadeVolume s (start + i))
  | 0, _ => by simp [fadeLoop]
  | fuel + 1, start => by
      rw [List.range_succ_eq_map]
      simp only [fadeLoop, if_pos, List.map_cons, List.map_map, Nat.add_zero]
      rw [fadeLoop_true s fuel (start + 1)]
      refine congrArg₂ _ rfl (List.map_congr_left ?_)
      intro i _
      simp only [Function.comp]
      congr 2
      omega

theorem fadeLoop_stops_as_truncation (s : ℚ) (alive : Nat → Bool) :
    ∀ (fuel start : Nat), ∃ tail,
      fadeLoop (fun _ => true) s start fuel = fadeLoop alive s start fuel ++ tail
  | 0, _ => ⟨[], rfl⟩
  | fuel + 1, start => by
      by_cases h : alive start = true
      · obtain ⟨tail, ht⟩ := fadeLoop_stops_as_truncation s alive fuel (start + 1)
        exact ⟨tail, by simp [fadeLoop, h, ht]⟩
      · rw [Bool.not_eq_true] at h
        exact ⟨fadeLoop (fun _ => true) s start (fuel + 1), by simp [fadeLoop, h]⟩

/-- **C8** — `playMediaWithFadeIn` on a browser source: with
`fadeInDuration ≤ 0` exactly one play intent and no volume intents are
issued; otherwise the trace is `setVolume(startVolume)`, `play`,
`setVolume(startVolume)` again, followed by the 20 fade-step volumes, which
increase strictly from `fadeInStartVolume`, the 20th being exactly `1`; and
for any mid-fade disappearance of the target the emitted fade volumes are a
truncation of the full fade, the function stopping silently. -/
theorem c8_play_with_fade (settings : Settings) (m : MediaRec) (t f : Nat)
    (alive : Nat → Bool) (hd : isDesktopMedia m = false)
    (ht : m.tabId = some t) (hf : m.frameId = some f)
    (hs0 : 0 ≤ settings.fadeInStartVolume)
    (hs1 : settings.fadeInStartVolume < 1) :
    (settings.fadeInDuration ≤ 0 →
      playMediaWithFadeIn settings m alive = [Intent.playIntent t f m.mediaId]) ∧
    (0 < settings.fadeInDuration →
      playMediaWithFadeIn settings m (fun _ => true) =
        [Intent.setVolumeIntent t f m.mediaId settings.fadeInStartVolume,
          Intent.playIntent t f m.mediaId,
          Intent.setVolumeIntent t f m.mediaId settings.fadeInStartVolume] ++
          (fadeEmits (fun _ => true) settings.fadeInStartVolume).map
            (fun v => Intent.setVolumeIntent t f m.mediaId v)) ∧
    fadeEmits (fun _ => true) settings.fadeInStartVolume =
      (List.range FADE_STEPS).map
        (fun i => fadeVolume settings.fadeInStartVolume (i + 1)) ∧
    (fadeEmits (fun _ => true) settings.fadeInStartVolume).length = FADE_STEPS ∧
    (∀ k, 1 ≤ k → k < FADE_STEPS →
      fadeVolume settings.fadeInStartVolume k <
        fadeVolume settings.fadeInStartVolume (k + 1)) ∧
    (∀ k, 1 ≤ k → k ≤ FADE_STEPS →
      settings.fadeInStartVolume < fadeVolume settings.fadeInStartVolume k) ∧
    fadeVolume settings.fadeInStartVolume FADE_STEPS = 1 ∧
    (∃ tail, fadeEmits (fun _ => true) settings.fadeInStartVolume =
      fadeEmits alive settings.fadeInStartVolume ++ tail) := by
  set s := settings.fadeInStartVolume with hs
  have hchar : fadeEmits (fun _ => true) s =
      (List.range FADE_STEPS).map fun i => fadeVolume s (i + 1) := by
    rw [fadeEmits, fadeLoop_true]
    refine List.map_congr_left fun i _ => ?_
    rw [Nat.add_comm 1 i]
    exact clampVolume_of_nonneg _ (fadeVolume_nonneg s hs0 hs1.le _)
      (fadeVolume_le_one s _)
  have hinc : (0 : ℚ) < (1 - s) / 20 := by
    have : (0 : ℚ) < 1 - s := by linarith
    positivity
  refine ⟨?_, ?_, hchar, ?_, ?_, ?_, fadeVolume_last s, ?_⟩
  · intro hfd
    simp [playMediaWithFadeIn, hd, ht, hf, hfd]
  · intro hfd
    have hfd2 : ¬ settings.fadeInDuration ≤ 0 := by omega
    have hclamp : clampVolume s = s := clampVolume_of_nonneg s hs0 hs1.le
    simp [playMediaWithFadeIn, hd, ht, hf, hfd2, hclamp, hs]
  · simp [hchar]
  · intro k hk1 hk2
    rw [fadeVolume_affine s hs1.le k (by omega),
      fadeVolume_affine s hs1.le (k + 1) (by omega)]
    push_cast
    nlinarith
  · intro k hk1 hk2
    rw [fadeVolume_affine s hs1.le k hk2]
    have hkq : (1 : ℚ) ≤ (k : ℚ) := by exact_mod_cast hk1
    nlinarith
  · exact fadeLoop_stops_as_truncation s alive FADE_STEPS 1

/-- **C2** — whenever `scheduleResumePrevious` runs with a just-stopped
record, a positive `autoExpireSeconds` and an elapsed play time
`(now - startedAt) / 1000` of at least the threshold, every entry of the
paused stack is marked `expired = true` and no resume timer is armed; the
check precedes the `resumeOnManualPause` policy check, so this holds for any
`wasManualPause` value and any `resumeOnManualPause` setting. -/
theorem c2_auto_expire (now : Nat) (settings : Settings)
    (specific : Option MediaRec) (stopped : MediaRec) (wasManual : Bool)
    (st : MMState) (hthr : 0 < settings.autoExpireSeconds)
    (hstart : stopped.startedAt ≠ 0)
    (helapsed : (settings.autoExpireSeconds : ℚ) ≤
      ((now : ℚ) - (stopped.startedAt : ℚ)) / 1000) :
    (scheduleResumePrevious now settings specific (some stopped) wasManual
        st).st.pausedStack =
      (cancelPendingResume true st).1.pausedStack.map
        (fun m => { m with expired := true }) ∧
    (∀ m ∈ (scheduleResumePrevious now settings specific (some stopped) wasManual
        st).st.pausedStack, m.expired = true) ∧
    (scheduleResumePrevious now settings specific (some stopped) wasManual
        st).st.pendingResume = none := by
  have hdur : playDurationSec now stopped =
      ((now : ℚ) - (stopped.startedAt : ℚ)) / 1000 := by
    simp only [playDurationSec, jsOrN, hstart, if_neg hstart]
    push_cast
    ring
  have hhit : (decide (0 < settings.autoExpireSeconds) &&
      decide ((settings.autoExpireSeconds : ℚ) ≤ playDurationSec now stopped)) =
        true := by
    rw [hdur]
    simp [hthr, helapsed]
  have hpend := cancelPendingResume_pending true st
  refine ⟨?_, ?_, ?_⟩ <;>
    simp_all [scheduleResumePrevious, hhit]

theorem c2_auto_expire_witness :
    (scheduleResumePrevious 131000 { autoExpireSeconds := 120 } none
        (some { tabId := some 1, frameId := some 0, mediaId := "x",
                startedAt := 1000 }) true
        { pausedStack := [exC] }).st.pausedStack =
      [{ exC with expired := true }] ∧
    (scheduleResumePrevious 131000 { autoExpireSeconds := 120 } none
        (some { tabId := some 1, frameId := some 0, mediaId := "x",
                startedAt := 1000 }) true
        { pausedStack := [exC] }).st.pendingResume = none := by
  have h := c2_auto_expire 131000 { autoExpireSeconds := 120 } none
    { tabId := some 1, frameId := some 0, mediaId := "x", startedAt := 1000 }
    true { pausedStack := [exC] } (by decide) (by decide) (by norm_num)
  refine ⟨?_, h.2.2⟩
  rw [h.1]
  decide

/-- **C5** — a play event for the identity already occupying the Active Slot
is treated as a pure heartbeat: only `lastHeartbeat`, `title`, `cover`,
`duration` and `currentTime` of the active record are refreshed; its
identity and `startedAt` are kept, the paused stack, pending resume and
registry are untouched, no intent is sent and no state broadcast happens. -/
theorem c5_heartbeat (now : Nat) (settings : Settings) (dsnap : DeskSnap)
    (tabId frameId : Nat) (data : EventData) (tab : TabInfo) (st : MMState)
    (a : MediaRec)
    (hU : isUnknownMedia tab.url (jsOrS data.title (jsOrS tab.title "Unknown"))
      = false)
    (hact : st.activeMedia = some a)
    (h1 : a.tabId = some tabId) (h2 : a.frameId = some frameId)
    (h3 : a.mediaId = data.mediaId) :
    (handleMediaPlay now settings dsnap tabId frameId data tab st).st.activeMedia
      = some (playHeartbeat now data a) ∧
    (handleMediaPlay now settings dsnap tabId frameId data tab st).st.pausedStack
      = st.pausedStack ∧
    (handleMediaPlay now settings dsnap tabId frameId data tab st).st.pendingResume
      = st.pendingResume ∧
    (handleMediaPlay now settings dsnap tabId frameId data tab st).st.allMedia
      = st.allMedia ∧
    (handleMediaPlay now settings dsnap tabId frameId data tab st).st.recentPlayEvents
      = st.recentPlayEvents ∧
    (handleMediaPlay now settings dsnap tabId frameId data tab st).intents = [] ∧
    (handleMediaPlay now settings dsnap tabId frameId data tab st).broadcasts = 0 ∧
    (playHeartbeat now data a).tabId = a.tabId ∧
    (playHeartbeat now data a).frameId = a.frameId ∧
    (playHeartbeat now data a).mediaId = a.mediaId ∧
    (playHeartbeat now data a).startedAt = a.startedAt := by
  have hsame : sameAsActive st tabId frameId data.mediaId = true := by
    simp [sameAsActive, hact, matchesEvent, h1, h2, h3]
  simp [handleMediaPlay, hU, hsame, hact, playHeartbeat]

/-- The active record of the heartbeat witness. -/
def c5act : MediaRec :=
  { tabId := some 1, frameId := some 0, mediaId := "x", title := "old"
    startedAt := 5 }

/-- Pre-state of the heartbeat witness. -/
def c5st : MMState :=
  { activeMedia := some c5act, pendingResume := some exC, pausedStack := [exC] }

/-- Event payload of the heartbeat witness. -/
def c5data : EventData := { mediaId := "x", title := "X" }

/-- Tab metadata of the heartbeat witness. -/
def c5tab : TabInfo := { url := "https://x.example/v", title := "XTab" }

theorem c5_heartbeat_witness :
    (handleMediaPlay 10000 {} {} 1 0 c5data c5tab c5st).broadcasts = 0 ∧
    (handleMediaPlay 10000 {} {} 1 0 c5data c5tab c5st).st.pendingResume
      = some exC := by
  have h := c5_heartbeat 10000 {} {} 1 0 c5data c5tab c5st c5act
    (by decide) rfl rfl rfl rfl
  exact ⟨h.2.2.2.2.2.2.1, h.2.2.1⟩

theorem sameIdent_iff_keyOf (a b : MediaRec) :
    sameIdent a b = true ↔ keyOf a = keyOf b := by
  simp [sameIdent, keyOf, Prod.ext_iff, and_assoc]

theorem sameIdent_false (a b : MediaRec) (h : keyOf a ≠ keyOf b) :
    sameIdent a b = false := by
  rw [← Bool.not_eq_true, sameIdent_iff_keyOf]
  exact h

theorem matchesEvent_iff (m : MediaRec) (t f : Nat) (id : String) :
    matchesEvent m t f id = true ↔ keyOf m = (some t, some f, id) := by
  simp [matchesEvent, keyOf, Prod.ext_iff, and_assoc]

theorem matchesEvent_false (m : MediaRec) (t f : Nat) (id : String)
    (h : keyOf m ≠ (some t, some f, id)) : matchesEvent m t f id = false := by
  rw [← Bool.not_eq_true, matchesEvent_iff]
  exact h

/-- **C10** — a play event for a blacklisted URL from a non-active identity
(passing the unknown / rapid-replay / recently-extension-paused filters)
still cancels a live pending resume before returning at the blacklist gate,
re-inserting the cancelled target at the head of the paused stack when it is
absent; the event is therefore not a pure no-op on engine state. -/
theorem c10_blacklisted_play (now : Nat) (settings : Settings)
    (dsnap : DeskSnap) (tabId frameId : Nat) (data : EventData) (tab : TabInfo)
    (st : MMState) (P : MediaRec)
    (hU : isUnknownMedia tab.url (jsOrS data.title (jsOrS tab.title "Unknown"))
      = false)
    (hS : sameAsActive st tabId frameId data.mediaId = false)
    (hR : rapidPlay now data.mediaId st = false)
    (hG : recentlyExtPaused now tabId frameId data.mediaId st = false)
    (hB : isBlacklisted settings tab.url = true)
    (hP : st.pendingResume = some P)
    (habs : st.pausedStack.any (fun m => sameIdent m P) = false) :
    (handleMediaPlay now settings dsnap tabId frameId data tab st).st.pendingResume
      = none ∧
    (handleMediaPlay now settings dsnap tabId frameId data tab st).st.pausedStack
      = P :: st.pausedStack ∧
    (handleMediaPlay now settings dsnap tabId frameId data tab st).st.activeMedia
      = st.activeMedia ∧
    (handleMediaPlay now settings dsnap tabId frameId data tab st).st.allMedia
      = st.allMedia ∧
    (handleMediaPlay now settings dsnap tabId frameId data tab st).broadcasts
      = 0 ∧
    (handleMediaPlay now settings dsnap tabId frameId data tab st).st ≠ st := by
  have hcs : ∀ l, (cancelPendingResume true { st with recentPlayEvents := l }).1.pausedStack = P :: st.pausedStack :=
    fun l => cancelPendingResume_stack_requeue { st with recentPlayEvents := l } P hP habs
  have hcp : ∀ l, (cancelPendingResume true { st with recentPlayEvents := l } : MMState × List Intent).1.pendingResume = none :=
    fun l => cancelPendingResume_pending true { st with recentPlayEvents := l }
  have hca : ∀ l, (cancelPendingResume true { st with recentPlayEvents := l }).1.activeMedia = st.activeMedia :=
    fun l => cancelPendingResume_active true { st with recentPlayEvents := l }
  have hcm : ∀ l, (cancelPendingResume true { st with recentPlayEvents := l }).1.allMedia = st.allMedia :=
    fun l => cancelPendingResume_allMedia true { st with recentPlayEvents := l }
  refine ⟨?_, ?_, ?_, ?_, ?_, ?_⟩ <;>
    simp [handleMediaPlay, hU, hS, hR, hG, hB, hcs, hcp, hca, hcm]
  intro heq
  have h2 := hcp (trackPlayEvent now data.mediaId st.recentPlayEvents)
  rw [heq, hP] at h2
  exact Option.noConfusion h2

theorem c10_blacklisted_play_witness :
    (handleMediaPlay 10000 { blacklist := ["x.example"] } {} 1 0
        { mediaId := "x", title := "X" } c5tab
        { pendingResume := some exC }).st.pausedStack = [exC] ∧
    (handleMediaPlay 10000 { blacklist := ["x.example"] } {} 1 0
        { mediaId := "x", title := "X" } c5tab
        { pendingResume := some exC }).st ≠ ({ pendingResume := some exC } : MMState) := by
  have h := c10_blacklisted_play 10000 { blacklist := ["x.example"] } {} 1 0
    { mediaId := "x", title := "X" } c5tab { pendingResume := some exC } exC
    (by decide) (by decide) (by decide) (by decide) (by decide) rfl (by decide)
  exact ⟨h.2.1, h.2.2.2.2.2⟩

theorem pauseActiveMedia_stack (st : MMState) :
    (pauseActiveMedia st).1.pausedStack = st.pausedStack := by
  rcases h : st.activeMedia with _ | act
  · simp [pauseActiveMedia, h]
  · rcases hd : isDesktopMedia act with _ | _ <;>
      rcases ht : act.tabId with _ | t <;>
      rcases hf : act.frameId with _ | f <;>
      simp [pauseActiveMedia, pauseMedia, h, hd, ht, hf]

theorem pauseActiveMedia_pending (st : MMState) :
    (pauseActiveMedia st).1.pendingResume = st.pendingResume := by
  rcases h : st.activeMedia with _ | act
  · simp [pauseActiveMedia, h]
  · rcases hd : isDesktopMedia act with _ | _ <;>
      rcases ht : act.tabId with _ | t <;>
      rcases hf : act.frameId with _ | f <;>
      simp [pauseActiveMedia, pauseMedia, h, hd, ht, hf]

theorem pauseActiveMedia_active (st : MMState) :
    (pauseActiveMedia st).1.activeMedia = st.activeMedia := by
  rcases h : st.activeMedia with _ | act
  · simp [pauseActiveMedia, h]
  · rcases hd : isDesktopMedia act with _ | _ <;>
      rcases ht : act.tabId with _ | t <;>
      rcases hf : act.frameId with _ | f <;>
      simp [pauseActiveMedia, pauseMedia, h, hd, ht, hf]

/-- Pending-resume target of the C1 counterexample (a registered tab media). -/
def c1P : MediaRec :=
  { tabId := some 2, frameId := some 0, mediaId := "p"
    url := "https://p.example/", title := "P", startedAt := 50 }

/-- Pre-state of the C1 counterexample: a live pending resume for `c1P` and an
empty paused stack. -/
def c1st : MMState :=
  { pendingResume := some c1P, allMedia := [((2, 0, "p"), c1P)] }

/-- **C1 counterexample** — a play event for the fresh identity `x` (not the
active slot) cancels the pending resume for `p`, and `p` IS re-queued onto
the paused stack, which the claim asserts never happens: after the handler
returns, the paused stack contains exactly the cancelled target. -/
theorem c1_counterexample :
    c1st.pendingResume = some c1P ∧
    c1st.pausedStack = [] ∧
    (handleMediaPlay 10000 {} {} 1 0 { mediaId := "x", title := "X" } c5tab
      c1st).st.pausedStack = [c1P] := by
  refine ⟨rfl, rfl, ?_⟩
  decide

/-- **C1 (amended)** — a play event for a non-active identity (that passes
the unknown / rapid-replay / recently-extension-paused filters) cancels any
live pending resume, but the cancelled target IS re-queued onto Paused
History (`cancelPendingResume` is called with its default
`putBackInStack = true`, which re-inserts the target at the stack head at
the moment of cancellation when no entry shares its identity); after the
handler returns the pending resume is cleared and the cancelled target is
an entry of Paused History — not necessarily its head, since a displaced
active entry is pushed above it — provided the target's identity was absent
from Paused History and differs from both the played identity and the
displaced active entry's identity (otherwise later steps of the same
handler filter it out). -/
theorem c1_amended (now : Nat) (settings : Settings) (dsnap : DeskSnap)
    (tabId frameId : Nat) (data : EventData) (tab : TabInfo) (st : MMState)
    (P : MediaRec)
    (hU : isUnknownMedia tab.url (jsOrS data.title (jsOrS tab.title "Unknown"))
      = false)
    (hS : sameAsActive st tabId frameId data.mediaId = false)
    (hR : rapidPlay now data.mediaId st = false)
    (hG : recentlyExtPaused now tabId frameId data.mediaId st = false)
    (hP : st.pendingResume = some P)
    (habs : st.pausedStack.any (fun m => sameIdent m P) = false)
    (hkey : keyOf P ≠ (some tabId, some frameId, data.mediaId))
    (hact : ∀ act, st.activeMedia = some act → keyOf P ≠ keyOf act) :
    (handleMediaPlay now settings dsnap tabId frameId data tab st).st.pendingResume
      = none ∧
    P ∈ (handleMediaPlay now settings dsnap tabId frameId data tab st).st.pausedStack := by
  have hcs : ∀ l, (cancelPendingResume true { st with recentPlayEvents := l }).1.pausedStack = P :: st.pausedStack :=
    fun l => cancelPendingResume_stack_requeue { st with recentPlayEvents := l } P hP habs
  have hcp : ∀ l, (cancelPendingResume true { st with recentPlayEvents := l } : MMState × List Intent).1.pendingResume = none :=
    fun l => cancelPendingResume_pending true { st with recentPlayEvents := l }
  have hca : ∀ l, (cancelPendingResume true { st with recentPlayEvents := l }).1.activeMedia = st.activeMedia :=
    fun l => cancelPendingResume_active true { st with recentPlayEvents := l }
  have hme : matchesEvent P tabId frameId data.mediaId = false :=
    matchesEvent_false P tabId frameId data.mediaId hkey
  by_cases hB : isBlacklisted settings tab.url = true
  · constructor <;> simp [handleMediaPlay, hU, hS, hR, hG, hB, hcs, hcp]
  · rw [Bool.not_eq_true] at hB
    rcases hacts : st.activeMedia with _ | act
    · constructor <;>
      · simp [handleMediaPlay, promotePlay, hU, hS, hR, hG, hB, hca, hcs, hcp,
          List.mem_filter, hme]
        simp [hacts, List.mem_filter, hme, hcp, hcs]
    · have hsi : sameIdent P act = false := sameIdent_false P act (hact act hacts)
      constructor <;>
      · simp [handleMediaPlay, promotePlay, hU, hS, hR, hG, hB, hca, hcs, hcp,
          pauseActiveMedia_stack, pauseActiveMedia_pending, List.mem_filter, hme]
        simp only [hacts]
        split <;>
          simp [pauseActiveMedia_stack, pauseActiveMedia_pending, hcs, hcp, hsi,
            hme, List.mem_filter]

theorem c1_amended_witness :
    (handleMediaPlay 10000 {} {} 1 0 { mediaId := "x", title := "X" } c5tab
      c1st).st.pendingResume = none ∧
    c1P ∈ (handleMediaPlay 10000 {} {} 1 0 { mediaId := "x", title := "X" }
      c5tab c1st).st.pausedStack :=
  c1_amended 10000 {} {} 1 0 { mediaId := "x", title := "X" } c5tab c1st c1P
    (by decide) (by decide) (by decide) (by decide) rfl (by decide) (by decide)
    (by intro act h; exact Option.noConfusion h)

/-! ## Machinery for the paused-stack identity invariant -/

/-- No two entries of the list share an identity key. -/
def NoDupIdents (l : List MediaRec) : Prop := (l.map keyOf).Nodup

/-- Every registry binding's value carries the fields of its key (established
at registration and preserved by every update). -/
def RegConsistentL (l : List (MediaKey × MediaRec)) : Prop :=
  ∀ p ∈ l, p.2.tabId = some p.1.1 ∧ p.2.frameId = some p.1.2.1 ∧
    p.2.mediaId = p.1.2.2

/-- The induction invariant for the engine state. -/
def EngineInv (st : MMState) : Prop :=
  RegConsistentL st.allMedia ∧ NoDupIdents st.pausedStack

theorem noDupIdents_nil : NoDupIdents [] := by simp [NoDupIdents]

theorem noDupIdents_filter (l : List MediaRec) (p : MediaRec → Bool)
    (h : NoDupIdents l) : NoDupIdents (l.filter p) :=
  List.Nodup.sublist (List.Sublist.map keyOf (List.filter_sublist l)) h

theorem noDupIdents_sublist {l₁ l₂ : List MediaRec} (hs : l₁.Sublist l₂)
    (h : NoDupIdents l₂) : NoDupIdents l₁ :=
  List.Nodup.sublist (List.Sublist.map keyOf hs) h

theorem noDupIdents_cons_filtered (x : MediaRec) (l : List MediaRec)
    (p : MediaRec → Bool) (h : NoDupIdents l)
    (hp : ∀ m, p m = true → keyOf m ≠ keyOf x) :
    NoDupIdents (x :: l.filter p) := by
  unfold NoDupIdents
  simp only [List.map_cons, List.nodup_cons]
  refine ⟨?_, noDupIdents_filter l p h⟩
  intro hmem
  obtain ⟨m, hm, hkey⟩ := List.mem_map.mp hmem
  obtain ⟨_, hpm⟩ := List.mem_filter.mp hm
  exact hp m hpm hkey

theorem noDupIdents_append_single (l : List MediaRec) (x : MediaRec)
    (h : NoDupIdents l) (hx : ∀ m ∈ l, keyOf m ≠ keyOf x) :
    NoDupIdents (l ++ [x]) := by
  unfold NoDupIdents
  rw [List.map_append, List.nodup_append]
  refine ⟨h, by simp, ?_⟩
  intro a ha hb
  simp only [List.map_cons, List.map_nil, List.mem_singleton] at hb
  obtain ⟨m, hm, hkey⟩ := List.mem_map.mp ha
  exact hx m hm (hkey.trans hb)

theorem map_keyOf_of_preserving (g : MediaRec → MediaRec)
    (hg : ∀ m, keyOf (g m) = keyOf m) (l : List MediaRec) :
    (l.map g).map keyOf = l.map keyOf := by
  rw [List.map_map]
  exact List.map_congr_left fun m _ => hg m

theorem noDupIdents_map (g : MediaRec → MediaRec)
    (hg : ∀ m, keyOf (g m) = keyOf m) (l : List MediaRec) (h : NoDupIdents l) :
    NoDupIdents (l.map g) := by
  unfold NoDupIdents
  rw [map_keyOf_of_preserving g hg l]
  exact h

theorem markFirstManual_keys (t f : Nat) (id : String) :
    ∀ l : List MediaRec, (markFirstManual t f id l).map keyOf = l.map keyOf
  | [] => rfl
  | m :: rest => by
      by_cases h : matchesEvent m t f id = true
      · simp [markFirstManual, h, keyOf]
      · rw [Bool.not_eq_true] at h
        simp [markFirstManual, h, markFirstManual_keys t f id rest]

theorem markFirstManualById_keys (id : String) :
    ∀ l : List MediaRec, (markFirstManualById id l).map keyOf = l.map keyOf
  | [] => rfl
  | m :: rest => by
      by_cases h : m.mediaId = id
      · by_cases h2 : m.manuallyPaused = true
        · simp [markFirstManualById, h, h2]
        · rw [Bool.not_eq_true] at h2
          simp [markFirstManualById, h, h2, keyOf]
      · simp [markFirstManualById, h, markFirstManualById_keys id rest]

theorem spliceFirst_sublist (p : MediaRec → Bool) :
    ∀ l : List MediaRec, (spliceFirst p l).Sublist l
  | [] => List.Sublist.refl []
  | m :: rest => by
      by_cases h : p m = true
      · simp only [spliceFirst, h, if_true]
        exact List.sublist_cons_self m rest
      · rw [Bool.not_eq_true] at h
        simp only [spliceFirst, h, Bool.false_eq_true, if_false]
        exact (spliceFirst_sublist p rest).cons₂ m

theorem findNextAutoResumable_snd_sublist (e : Option String) :
    ∀ l : List MediaRec, (findNextAutoResumable e l).2.Sublist l
  | [] => List.Sublist.refl []
  | m :: rest => by
      by_cases h : eligible e m = true
      · simp only [findNextAutoResumable, h, if_true]
        exact List.sublist_cons_self m rest
      · rw [Bool.not_eq_true] at h
        simp only [findNextAutoResumable, h, Bool.false_eq_true, if_false]
        exact (findNextAutoResumable_snd_sublist e rest).cons₂ m

theorem any_sameIdent_false (l : List MediaRec) (x : MediaRec)
    (h : l.any (fun m => sameIdent m x) = false) :
    ∀ m ∈ l, keyOf m ≠ keyOf x := by
  intro m hm hkey
  rw [List.any_eq_false] at h
  exact h m hm ((sameIdent_iff_keyOf m x).mpr hkey)

theorem noDupIdents_cons (x : MediaRec) (l : List MediaRec) (h : NoDupIdents l)
    (hx : ∀ m ∈ l, keyOf m ≠ keyOf x) : NoDupIdents (x :: l) := by
  unfold NoDupIdents
  simp only [List.map_cons, List.nodup_cons]
  refine ⟨?_, h⟩
  intro hmem
  obtain ⟨m, hm, hkey⟩ := List.mem_map.mp hmem
  exact hx m hm hkey

theorem cancelPendingResume_inv (b : Bool) (st : MMState) (h : EngineInv st) :
    EngineInv (cancelPendingResume b st).1 := by
  obtain ⟨hr, hn⟩ := h
  rcases hp : st.pendingResume with _ | p
  · simpa [cancelPendingResume, hp, EngineInv] using ⟨hr, hn⟩
  · refine ⟨?_, ?_⟩
    · simpa [cancelPendingResume, hp] using hr
    · simp only [cancelPendingResume, hp]
      split
      · split
        · exact hn
        · rename_i hany
          have hany2 : st.pausedStack.any (fun m => sameIdent m p) = false :=
            Bool.eq_false_iff.mpr hany
          exact noDupIdents_cons p st.pausedStack hn
            (any_sameIdent_false st.pausedStack p hany2)
      · exact hn

theorem scheduleResumePrevious_inv (now : Nat) (settings : Settings)
    (specific stopped : Option MediaRec) (wm : Bool) (st : MMState)
    (h : EngineInv st) :
    EngineInv (scheduleResumePrevious now settings specific stopped wm st).st := by
  obtain ⟨hr, hn⟩ := cancelPendingResume_inv true st h
  have hexpired : EngineInv { (cancelPendingResume true st).1 with
      pausedStack := (cancelPendingResume true st).1.pausedStack.map
        (fun m => { m with expired := true }) } :=
    ⟨hr, noDupIdents_map _ (fun m => by simp [keyOf]) _ hn⟩
  rcases stopped with _ | sm <;> rcases specific with _ | m <;>
  · simp only [scheduleResumePrevious]
    split
    · exact hexpired
    · split
      · exact ⟨hr, hn⟩
      · first
          | exact ⟨hr, hn⟩
          | (split <;>
              first
                | exact ⟨hr, hn⟩
                | exact ⟨hr, noDupIdents_sublist
                    (findNextAutoResumable_snd_sublist _ _) hn⟩)

theorem regL_filter (l : List (MediaKey × MediaRec)) (p : MediaKey × MediaRec → Bool)
    (h : RegConsistentL l) : RegConsistentL (l.filter p) :=
  fun q hq => h q (List.mem_of_mem_filter hq)

theorem regL_alSet (k : MediaKey) (v : MediaRec) (l : List (MediaKey × MediaRec))
    (h : RegConsistentL l)
    (hv : v.tabId = some k.1 ∧ v.frameId = some k.2.1 ∧ v.mediaId = k.2.2) :
    RegConsistentL (alSet k v l) := by
  intro q hq
  rcases List.mem_cons.mp hq with hq1 | hq2
  · subst hq1
    exact hv
  · exact h q (List.mem_of_mem_filter hq2)

theorem regL_alUpdate (k : MediaKey) (g : MediaRec → MediaRec)
    (l : List (MediaKey × MediaRec)) (h : RegConsistentL l)
    (hg : ∀ v, (g v).tabId = v.tabId ∧ (g v).frameId = v.frameId ∧
      (g v).mediaId = v.mediaId) :
    RegConsistentL (alUpdate k g l) := by
  intro q hq
  obtain ⟨p, hp, hpq⟩ := List.mem_map.mp hq
  by_cases hk : p.1 = k
  · rw [if_pos hk] at hpq
    obtain ⟨h1, h2, h3⟩ := h p hp
    obtain ⟨g1, g2, g3⟩ := hg p.2
    subst hpq
    exact ⟨g1.trans h1, g2.trans h2, g3.trans h3⟩
  · rw [if_neg hk] at hpq
    subst hpq
    exact h p hp

theorem not_sameIdent_key (act m : MediaRec) (hm : (!sameIdent m act) = true) :
    keyOf m ≠ keyOf act := by
  intro hk
  rw [Bool.not_eq_true'] at hm
  rw [(sameIdent_iff_keyOf m act).mpr hk] at hm
  exact Bool.noConfusion hm

theorem not_matchesEvent_key (t f : Nat) (id : String) (m : MediaRec)
    (hm : (!matchesEvent m t f id) = true) : keyOf m ≠ (some t, some f, id) := by
  intro hk
  rw [Bool.not_eq_true'] at hm
  rw [(matchesEvent_iff m t f id).mpr hk] at hm
  exact Bool.noConfusion hm

theorem pauseActiveMedia_reg (st : MMState)
    (hr : RegConsistentL st.allMedia) :
    RegConsistentL (pauseActiveMedia st).1.allMedia := by
  rcases h : st.activeMedia with _ | act
  · simpa [pauseActiveMedia, h] using hr
  · rcases hd : isDesktopMedia act with _ | _
    · rcases ht : act.tabId with _ | t
      · simpa [pauseActiveMedia, h, hd, ht] using hr
      · rcases hf : act.frameId with _ | f
        · simpa [pauseActiveMedia, h, hd, ht, hf] using hr
        · simpa [pauseActiveMedia, pauseMedia, h, hd, ht, hf] using
            regL_alUpdate (t, f, act.mediaId)
              (fun v => { v with isPlaying := false }) st.allMedia hr
              (fun v => ⟨rfl, rfl, rfl⟩)
    · simpa [pauseActiveMedia, h, hd] using hr

theorem handleMediaRegistered_inv (tabId frameId : Nat) (settings : Settings)
    (data : EventData) (tab : TabInfo) (st : MMState) (h : EngineInv st) :
    EngineInv (handleMediaRegistered tabId frameId settings data tab st).st := by
  obtain ⟨hr, hn⟩ := h
  simp only [handleMediaRegistered]
  split
  · exact ⟨hr, hn⟩
  · split
    · exact ⟨hr, hn⟩
    · exact ⟨regL_alSet _ _ _ hr ⟨rfl, rfl, rfl⟩, hn⟩

theorem resumeAfterUnregister_inv (now : Nat) (settings : Settings)
    (tabId frameId : Nat) (data : EventData) (c : MMState × List Intent)
    (h : EngineInv c.1) :
    EngineInv (resumeAfterUnregister now settings tabId frameId data c).st := by
  have h3 : EngineInv { c.1 with pausedStack := c.1.pausedStack.filter (fun m => !matchesEvent m tabId frameId data.mediaId) } :=
    ⟨h.1, noDupIdents_filter _ _ h.2⟩
  simp only [resumeAfterUnregister]
  split
  · split
    · exact scheduleResumePrevious_inv _ _ _ _ _ _ ⟨h3.1, h3.2⟩
    · exact h3
  · exact h3

theorem handleMediaUnregistered_inv (now : Nat) (settings : Settings)
    (tabId frameId : Nat) (data : EventData) (st : MMState) (h : EngineInv st) :
    EngineInv (handleMediaUnregistered now settings tabId frameId data st).st := by
  obtain ⟨hr, hn⟩ := h
  have h1 : EngineInv { st with
      allMedia := alDel (tabId, frameId, data.mediaId) st.allMedia
      originalVolumes := st.originalVolumes.filter fun p => decide (p.1 ≠ data.mediaId)
      recentPlayEvents := st.recentPlayEvents.filter fun p => decide (p.1 ≠ data.mediaId) } :=
    ⟨regL_filter _ _ hr, hn⟩
  simp only [handleMediaUnregistered]
  split
  · split
    · exact resumeAfterUnregister_inv now settings tabId frameId data _
        (cancelPendingResume_inv false _ h1)
    · exact resumeAfterUnregister_inv now settings tabId frameId data _ h1
  · exact resumeAfterUnregister_inv now settings tabId frameId data _ h1

theorem promotePlay_inv (now : Nat) (dsnap : DeskSnap) (tabId frameId : Nat)
    (data : EventData) (tab : TabInfo) (url title : String)
    (c : MMState × List Intent) (h : EngineInv c.1) :
    EngineInv (promotePlay now dsnap tabId frameId data tab url title c).st := by
  have hr3 : RegConsistentL
      (updatePlayingInfo (tabId, frameId, data.mediaId) data c.1.allMedia) :=
    regL_alUpdate _ _ _ h.1 (fun v => ⟨rfl, rfl, rfl⟩)
  simp only [promotePlay]
  split
  · -- no previous active media
    exact ⟨hr3, noDupIdents_filter _ _ h.2⟩
  · rename_i act heq
    split
    · -- rapid-scroll switch
      exact ⟨hr3, noDupIdents_filter _ _ (noDupIdents_filter _ _ h.2)⟩
    · -- displace the previous active media
      refine ⟨pauseActiveMedia_reg _ hr3, ?_⟩
      rw [pauseActiveMedia_stack]
      exact noDupIdents_filter _ _ (noDupIdents_cons_filtered _ _ _ h.2
        (fun m hm => not_sameIdent_key act m hm))

theorem handleMediaPlay_inv (now : Nat) (settings : Settings) (dsnap : DeskSnap)
    (tabId frameId : Nat) (data : EventData) (tab : TabInfo) (st : MMState)
    (h : EngineInv st) :
    EngineInv (handleMediaPlay now settings dsnap tabId frameId data tab st).st := by
  obtain ⟨hr, hn⟩ := h
  have h1 : EngineInv { st with recentPlayEvents := trackPlayEvent now data.mediaId st.recentPlayEvents } :=
    ⟨hr, hn⟩
  simp only [handleMediaPlay]
  split
  · exact ⟨hr, hn⟩
  · split
    · split
      · exact ⟨hr, hn⟩
      · exact ⟨hr, hn⟩
    · split
      · exact ⟨hr, hn⟩
      · split
        · exact ⟨hr, hn⟩
        · split
          · exact cancelPendingResume_inv true _ h1
          · exact promotePlay_inv now dsnap tabId frameId data tab _ _ _
              (cancelPendingResume_inv true _ h1)

theorem alGet_mem (k : MediaKey) (l : List (MediaKey × MediaRec)) (v : MediaRec)
    (h : alGet k l = some v) : (k, v) ∈ l := by
  unfold alGet at h
  rcases hf : l.find? (fun p => decide (p.1 = k)) with _ | p
  · rw [hf] at h
    exact Option.noConfusion h
  · rw [hf] at h
    have hk := List.find?_some hf
    rw [decide_eq_true_eq] at hk
    have hmem := List.mem_of_find?_eq_some hf
    obtain ⟨a, b⟩ := p
    simp only [Option.map_some', Option.some.injEq] at h
    subst hk
    subst h
    exact hmem

theorem key_ne_of_mediaId_ne (x m : MediaRec) (h : m.mediaId ≠ x.mediaId) :
    keyOf m ≠ keyOf x := by
  intro hk
  apply h
  have := congrArg (fun q : Option Nat × Option Nat × String => q.2.2) hk
  simpa [keyOf] using this

theorem handleMediaPauseNonActive_inv (now tabId frameId : Nat)
    (data : EventData) (st0 : MMState) (h : EngineInv st0) :
    EngineInv
      (handleMediaPause.handleMediaPauseNonActive now tabId frameId data st0).st := by
  obtain ⟨hr, hn⟩ := h
  simp only [handleMediaPause.handleMediaPauseNonActive]
  split
  · exact ⟨hr, hn⟩
  · rename_i mediaInfo hget
    split
    · split
      · refine ⟨hr, ?_⟩
        unfold NoDupIdents
        rw [markFirstManual_keys]
        exact hn
      · exact ⟨hr, hn⟩
    · rename_i hany
      have hany2 : st0.pausedStack.any
          (fun m => matchesEvent m tabId frameId data.mediaId) = false :=
        Bool.eq_false_iff.mpr hany
      obtain ⟨ht, hf, hmid⟩ := hr _ (alGet_mem _ _ _ hget)
      refine ⟨hr, noDupIdents_append_single _ _ hn ?_⟩
      intro m hm hkeq
      rw [List.any_eq_false] at hany2
      apply hany2 m hm
      refine (matchesEvent_iff m tabId frameId data.mediaId).mpr ?_
      rw [hkeq]
      show (mediaInfo.tabId, mediaInfo.frameId, mediaInfo.mediaId) = _
      rw [ht, hf, hmid]

theorem handleMediaPause_inv (now : Nat) (settings : Settings)
    (tabId frameId : Nat) (data : EventData) (st : MMState) (h : EngineInv st) :
    EngineInv (handleMediaPause now settings tabId frameId data st).st := by
  obtain ⟨hr, hn⟩ := h
  have hreg : RegConsistentL (alUpdate (tabId, frameId, data.mediaId) (fun v => { v with isPlaying := false, currentTime := jsOrN data.currentTime v.currentTime }) st.allMedia) :=
    regL_alUpdate _ _ _ hr (fun v => ⟨rfl, rfl, rfl⟩)
  simp only [handleMediaPause]
  split
  · rename_i act heq
    split
    · rename_i hme
      have hkey := (matchesEvent_iff act tabId frameId data.mediaId).mp hme
      refine scheduleResumePrevious_inv _ _ _ _ _ _ ⟨hreg, ?_⟩
      refine noDupIdents_cons_filtered _ _ _ hn ?_
      intro m hm
      show keyOf m ≠ keyOf act
      rw [hkey]
      exact not_matchesEvent_key tabId frameId data.mediaId m hm
    · exact handleMediaPauseNonActive_inv now tabId frameId data _ ⟨hreg, hn⟩
  · exact handleMediaPauseNonActive_inv now tabId frameId data _ ⟨hreg, hn⟩

theorem handleTimeUpdate_inv (now tabId frameId : Nat) (data : EventData)
    (st : MMState) (h : EngineInv st) :
    EngineInv (handleTimeUpdate now tabId frameId data st).st := by
  obtain ⟨hr, hn⟩ := h
  have hreg := regL_alUpdate (tabId, frameId, data.mediaId)
    (fun v => { v with currentTime := data.currentTime, duration := jsOrN data.duration v.duration, lastHeartbeat := now })
    st.allMedia hr (fun v => ⟨rfl, rfl, rfl⟩)
  simp only [handleTimeUpdate]
  split
  · split
    · exact ⟨hreg, hn⟩
    · exact ⟨hreg, hn⟩
  · exact ⟨hreg, hn⟩

theorem handleMediaEnded_inv (now : Nat) (settings : Settings)
    (tabId frameId : Nat) (data : EventData) (st : MMState) (h : EngineInv st) :
    EngineInv (handleMediaEnded now settings tabId frameId data st).st := by
  obtain ⟨hr, hn⟩ := h
  have hreg := regL_alUpdate (tabId, frameId, data.mediaId)
    (fun v => { v with isPlaying := false }) st.allMedia hr
    (fun v => ⟨rfl, rfl, rfl⟩)
  simp only [handleMediaEnded]
  split
  · split
    · exact scheduleResumePrevious_inv _ _ _ _ _ _ ⟨hreg, hn⟩
    · exact ⟨hreg, hn⟩
  · exact ⟨hreg, hn⟩

theorem handleTabClosed_inv (now : Nat) (settings : Settings) (tabId : Nat)
    (st : MMState) (h : EngineInv st) :
    EngineInv (handleTabClosed now settings tabId st).st := by
  obtain ⟨hr, hn⟩ := h
  have h1 : EngineInv { st with allMedia := st.allMedia.filter (fun p => decide (p.2.tabId ≠ some tabId)), originalVolumes := st.originalVolumes.filter (fun q => !(((st.allMedia.filter fun p => decide (p.2.tabId = some tabId)).map fun p => p.2.mediaId).contains q.1)), pausedStack := st.pausedStack.filter (fun m => decide (m.tabId ≠ some tabId) || isDesktopMedia m) } :=
    ⟨regL_filter _ _ hr, noDupIdents_filter _ _ hn⟩
  simp only [handleTabClosed]
  split
  · split
    · split
      · have h2 := cancelPendingResume_inv false _ h1
        exact scheduleResumePrevious_inv _ _ _ _ _ _ ⟨h2.1, h2.2⟩
      · exact scheduleResumePrevious_inv _ _ _ _ _ _ ⟨h1.1, h1.2⟩
    · exact scheduleResumePrevious_inv _ _ _ _ _ _ ⟨h1.1, h1.2⟩
  · split
    · split
      · exact cancelPendingResume_inv false _ h1
      · exact h1
    · exact h1

theorem controlDesktopMedia_inv (now : Nat) (settings : Settings)
    (mediaId action : String) (st : MMState) (h : EngineInv st) :
    EngineInv (controlDesktopMedia now settings mediaId action st).st := by
  obtain ⟨hr, hn⟩ := h
  simp only [controlDesktopMedia]
  split
  · obtain ⟨hr2, hn2⟩ := cancelPendingResume_inv true st ⟨hr, hn⟩
    exact ⟨hr2, noDupIdents_sublist (spliceFirst_sublist _ _) hn2⟩
  · split
    · split
      · rename_i act heq
        split
        · rename_i hmid
          refine scheduleResumePrevious_inv _ _ _ _ _ _ ⟨hr, ?_⟩
          refine noDupIdents_cons_filtered _ _ _ hn ?_
          intro m hm
          rw [decide_eq_true_eq] at hm
          show keyOf m ≠ keyOf act
          exact key_ne_of_mediaId_ne act m (by rw [hmid]; exact hm)
        · exact scheduleResumePrevious_inv _ _ _ _ _ _ ⟨hr, hn⟩
      · exact scheduleResumePrevious_inv _ _ _ _ _ _ ⟨hr, hn⟩
    · split
      · exact ⟨hr, hn⟩
      · split
        · exact ⟨hr, hn⟩
        · exact ⟨hr, hn⟩

theorem controlMedia_inv (now : Nat) (settings : Settings) (data : ControlData)
    (st : MMState) (h : EngineInv st) :
    EngineInv (controlMedia now settings data st).st := by
  obtain ⟨hr, hn⟩ := h
  simp only [controlMedia]
  split
  · exact controlDesktopMedia_inv now settings data.mediaId data.action st ⟨hr, hn⟩
  · split
    · obtain ⟨hr2, hn2⟩ := cancelPendingResume_inv true st ⟨hr, hn⟩
      exact ⟨hr2, noDupIdents_sublist (spliceFirst_sublist _ _) hn2⟩
    · split
      · split
        · rename_i act heq
          split
          · rename_i hme
            have hkey :=
              (matchesEvent_iff act data.tabId data.frameId data.mediaId).mp hme
            refine scheduleResumePrevious_inv _ _ _ _ _ _ ⟨hr, ?_⟩
            refine noDupIdents_cons_filtered _ _ _ hn ?_
            intro m hm
            show keyOf m ≠ keyOf act
            rw [hkey]
            exact not_matchesEvent_key data.tabId data.frameId data.mediaId m hm
          · exact scheduleResumePrevious_inv _ _ _ _ _ _ ⟨hr, hn⟩
        · exact scheduleResumePrevious_inv _ _ _ _ _ _ ⟨hr, hn⟩
      · split
        · exact ⟨hr, hn⟩
        · split
          · exact ⟨hr, hn⟩
          · exact ⟨hr, hn⟩

theorem onDesktopMediaPlay_inv (now : Nat) (d : MediaRec) (st : MMState)
    (h : EngineInv st) :
    EngineInv (onDesktopMediaPlay now d st).st := by
  obtain ⟨hr2, hn2⟩ := cancelPendingResume_inv false st h
  simp only [onDesktopMediaPlay]
  split
  · rename_i act heq
    split
    · refine ⟨?_, ?_⟩
      · exact pauseActiveMedia_reg _ hr2
      · refine noDupIdents_filter _ _ ?_
        rw [pauseActiveMedia_stack]
        refine noDupIdents_cons _ _ (noDupIdents_filter _ _ hn2) ?_
        intro m hm
        have hpm := (List.mem_filter.mp hm).2
        show keyOf m ≠ keyOf act
        exact not_sameIdent_key act m hpm
    · exact ⟨hr2, noDupIdents_filter _ _ hn2⟩
  · exact ⟨hr2, noDupIdents_filter _ _ hn2⟩

theorem onDesktopMediaPause_inv (now : Nat) (settings : Settings) (d : MediaRec)
    (st : MMState) (h : EngineInv st) :
    EngineInv (onDesktopMediaPause now settings d st).st := by
  obtain ⟨hr, hn⟩ := h
  have hmark : EngineInv { st with pausedStack := markFirstManualById d.mediaId st.pausedStack } := by
    refine ⟨hr, ?_⟩
    unfold NoDupIdents
    rw [markFirstManualById_keys]
    exact hn
  simp only [onDesktopMediaPause]
  split
  · split
    · rename_i act hmid
      refine scheduleResumePrevious_inv _ _ _ _ _ _ ⟨hr, ?_⟩
      refine noDupIdents_cons_filtered _ _ _ hn ?_
      intro m hm
      rw [decide_eq_true_eq] at hm
      exact key_ne_of_mediaId_ne d m hm
    · split
      · exact hmark
      · exact ⟨hr, hn⟩
  · split
    · exact hmark
    · exact ⟨hr, hn⟩

theorem onDesktopDisconnected_inv (st : MMState) (h : EngineInv st) :
    EngineInv (onDesktopDisconnected st).st := by
  obtain ⟨hr, hn⟩ := h
  simp only [onDesktopDisconnected]
  split
  · split
    · exact ⟨hr, noDupIdents_filter _ _ hn⟩
    · exact ⟨hr, noDupIdents_filter _ _ hn⟩
  · exact ⟨hr, noDupIdents_filter _ _ hn⟩

theorem applyOp_inv (st : MMState) (op : Op) (h : EngineInv st) :
    EngineInv (applyOp st op) := by
  cases op with
  | register tabId frameId settings data tab =>
      exact handleMediaRegistered_inv tabId frameId settings data tab st h
  | unregister now settings tabId frameId data =>
      exact handleMediaUnregistered_inv now settings tabId frameId data st h
  | play now settings dsnap tabId frameId data tab =>
      exact handleMediaPlay_inv now settings dsnap tabId frameId data tab st h
  | pause now settings tabId frameId data =>
      exact handleMediaPause_inv now settings tabId frameId data st h
  | ended now settings tabId frameId data =>
      exact handleMediaEnded_inv now settings tabId frameId data st h
  | timeUpdate now tabId frameId data =>
      exact handleTimeUpdate_inv now tabId frameId data st h
  | tabClosed now settings tabId => exact handleTabClosed_inv now settings tabId st h
  | control now settings data => exact controlMedia_inv now settings data st h
  | desktopPlay now d => exact onDesktopMediaPlay_inv now d.toRec st h
  | desktopPause now settings d =>
      exact onDesktopMediaPause_inv now settings d.toRec st h
  | desktopGone => exact onDesktopDisconnected_inv st h
  | cancel b => exact cancelPendingResume_inv b st h

theorem runOps_inv (ops : List Op) :
    ∀ st : MMState, EngineInv st → EngineInv (runOps st ops) := by
  induction ops with
  | nil => exact fun st h => h
  | cons op rest ih =>
      intro st h
      exact ih (applyOp st op) (applyOp_inv st op h)

/-- **C4** — in every state reachable from the empty initial state by any
sequence of public operations, the paused stack holds at most one entry per
identity `(tabId, frameId, mediaId)` (desktop records carry `tabId = none`
and `frameId = none`, so for them the key reduces to the `mediaId`): the map
of identity keys over the stack has no duplicates, because every insertion
first removes any entry with the same identity. -/
theorem c4_pausedStack_identities_nodup (ops : List Op) :
    NoDupIdents (runOps initState ops).pausedStack :=
  (runOps_inv ops initState
    ⟨fun _ hp => absurd hp (List.not_mem_nil _),
      by simp [NoDupIdents, initState]⟩).2

/-! ## Machinery for the active-slot registration invariant -/

theorem alGet_ne_none_iff (k : MediaKey) (l : List (MediaKey × MediaRec)) :
    alGet k l ≠ none ↔ ∃ p ∈ l, p.1 = k := by
  unfold alGet
  rw [Ne, Option.map_eq_none', List.find?_eq_none]
  push_neg
  simp

theorem alGet_alUpdate_ne_none (k k2 : MediaKey) (g : MediaRec → MediaRec)
    (l : List (MediaKey × MediaRec)) (h : alGet k l ≠ none) :
    alGet k (alUpdate k2 g l) ≠ none := by
  rw [alGet_ne_none_iff] at h ⊢
  obtain ⟨p, hp, hk⟩ := h
  by_cases h2 : p.1 = k2
  · exact ⟨(p.1, g p.2), List.mem_map.mpr ⟨p, hp, by rw [if_pos h2]⟩, hk⟩
  · exact ⟨p, List.mem_map.mpr ⟨p, hp, by rw [if_neg h2]⟩, hk⟩

theorem alGet_alSet_ne_none (k k2 : MediaKey) (v : MediaRec)
    (l : List (MediaKey × MediaRec)) (h : alGet k l ≠ none) :
    alGet k (alSet k2 v l) ≠ none := by
  rw [alGet_ne_none_iff] at h ⊢
  obtain ⟨p, hp, hk⟩ := h
  by_cases h2 : k = k2
  · exact ⟨(k2, v), List.mem_cons_self _ _, h2.symm⟩
  · refine ⟨p, List.mem_cons_of_mem _ (List.mem_filter.mpr ⟨hp, ?_⟩), hk⟩
    rw [decide_eq_true_eq, hk]
    exact h2

theorem alGet_filter_ne_none (k : MediaKey) (q : MediaKey × MediaRec → Bool)
    (l : List (MediaKey × MediaRec)) (h : alGet k l ≠ none)
    (hq : ∀ p ∈ l, p.1 = k → q p = true) :
    alGet k (l.filter q) ≠ none := by
  rw [alGet_ne_none_iff] at h ⊢
  obtain ⟨p, hp, hk⟩ := h
  exact ⟨p, List.mem_filter.mpr ⟨hp, hq p hp hk⟩, hk⟩

theorem pauseActiveMedia_allMedia_get (st : MMState) (k : MediaKey)
    (h : alGet k st.allMedia ≠ none) :
    alGet k (pauseActiveMedia st).1.allMedia ≠ none := by
  rcases ha : st.activeMedia with _ | act
  · simpa [pauseActiveMedia, ha] using h
  · rcases hd : isDesktopMedia act with _ | _
    · rcases ht : act.tabId with _ | t
      · simpa [pauseActiveMedia, ha, hd, ht] using h
      · rcases hf : act.frameId with _ | f
        · simpa [pauseActiveMedia, ha, hd, ht, hf] using h
        · simpa [pauseActiveMedia, pauseMedia, ha, hd, ht, hf] using
            alGet_alUpdate_ne_none k (t, f, act.mediaId) _ st.allMedia h
    · simpa [pauseActiveMedia, ha, hd] using h

theorem scheduleResumePrevious_active (now : Nat) (settings : Settings)
    (specific stopped : Option MediaRec) (wm : Bool) (st : MMState) :
    (scheduleResumePrevious now settings specific stopped wm st).st.activeMedia
      = st.activeMedia := by
  have hc := cancelPendingResume_active true st
  rcases stopped with _ | sm <;> rcases specific with _ | m <;>
  · simp only [scheduleResumePrevious]
    split
    · exact hc
    · split
      · exact hc
      · first
          | exact hc
          | (split <;> exact hc)

theorem scheduleResumePrevious_allMedia (now : Nat) (settings : Settings)
    (specific stopped : Option MediaRec) (wm : Bool) (st : MMState) :
    (scheduleResumePrevious now settings specific stopped wm st).st.allMedia
      = st.allMedia := by
  have hc := cancelPendingResume_allMedia true st
  rcases stopped with _ | sm <;> rcases specific with _ | m <;>
  · simp only [scheduleResumePrevious]
    split
    · exact hc
    · split
      · exact hc
      · first
          | exact hc
          | (split <;> exact hc)

/-- The Active Slot invariant of the spec: a non-desktop active media's
`(tabId, frameId, mediaId)` identity is present in the Source Registry. -/
def activeRegistered (st : MMState) : Prop :=
  ∀ a, st.activeMedia = some a → isDesktopMedia a = false →
    ∃ t f, a.tabId = some t ∧ a.frameId = some f ∧
      alGet (t, f, a.mediaId) st.allMedia ≠ none

theorem activeRegistered_of (st st2 : MMState)
    (hact : st2.activeMedia = st.activeMedia)
    (hget : ∀ k, alGet k st.allMedia ≠ none → alGet k st2.allMedia ≠ none)
    (h : activeRegistered st) : activeRegistered st2 := by
  intro a ha hd
  obtain ⟨t, f, ht, hf, hg⟩ := h a (hact ▸ ha) hd
  exact ⟨t, f, ht, hf, hget _ hg⟩

theorem activeRegistered_none (st2 : MMState) (hact : st2.activeMedia = none) :
    activeRegistered st2 := by
  intro a ha
  rw [hact] at ha
  exact absurd ha (Option.noConfusion)

/-- The registration guard for the restricted operation sequences: play events
target a currently registered identity and desktop-link events carry
desktop-identified media. -/
def opOK (st : MMState) : Op → Prop
  | .play _ _ _ tabId frameId data _ =>
      alGet (tabId, frameId, data.mediaId) st.allMedia ≠ none
  | .desktopPlay _ d => isDesktopMedia d.toRec = true
  | _ => True

/-- States reachable from the initial state via guarded operations. -/
inductive ReachRegistered : MMState → Prop
  | init : ReachRegistered initState
  | step (st : MMState) (op : Op) : ReachRegistered st → opOK st op →
      ReachRegistered (applyOp st op)

theorem handleMediaRegistered_aR (tabId frameId : Nat) (settings : Settings)
    (data : EventData) (tab : TabInfo) (st : MMState) (h : activeRegistered st) :
    activeRegistered (handleMediaRegistered tabId frameId settings data tab st).st := by
  simp only [handleMediaRegistered]
  split
  · exact h
  · split
    · exact h
    · exact activeRegistered_of st _ rfl
        (fun k hk => alGet_alSet_ne_none k _ _ _ hk) h

theorem promotePlay_aR (now : Nat) (dsnap : DeskSnap) (tabId frameId : Nat)
    (data : EventData) (tab : TabInfo) (url title : String)
    (c : MMState × List Intent)
    (hok : alGet (tabId, frameId, data.mediaId) c.1.allMedia ≠ none) :
    activeRegistered (promotePlay now dsnap tabId frameId data tab url title c).st := by
  have hok2 : alGet (tabId, frameId, data.mediaId)
      (updatePlayingInfo (tabId, frameId, data.mediaId) data c.1.allMedia) ≠ none :=
    alGet_alUpdate_ne_none _ _ _ _ hok
  simp only [promotePlay]
  split
  · -- no previous active media
    intro b hb hd
    have hb2 := Option.some.inj hb
    subst hb2
    exact ⟨tabId, frameId, rfl, rfl, hok2⟩
  · split
    · -- rapid scroll
      intro b hb hd
      have hb2 := Option.some.inj hb
      subst hb2
      exact ⟨tabId, frameId, rfl, rfl, hok2⟩
    · -- displacement
      intro b hb hd
      have hb2 := Option.some.inj hb
      subst hb2
      exact ⟨tabId, frameId, rfl, rfl, pauseActiveMedia_allMedia_get _ _ hok2⟩

theorem handleMediaPlay_aR (now : Nat) (settings : Settings) (dsnap : DeskSnap)
    (tabId frameId : Nat) (data : EventData) (tab : TabInfo) (st : MMState)
    (h : activeRegistered st)
    (hok : alGet (tabId, frameId, data.mediaId) st.allMedia ≠ none) :
    activeRegistered (handleMediaPlay now settings dsnap tabId frameId data tab st).st := by
  simp only [handleMediaPlay]
  split
  · exact h
  · split
    · split
      · rename_i a heq
        intro b hb hd
        have hb2 := Option.some.inj hb
        subst hb2
        obtain ⟨t, f, ht, hf, hg⟩ := h a heq (by exact hd)
        exact ⟨t, f, ht, hf, hg⟩
      · exact h
    · split
      · exact h
      · split
        · exact h
        · split
          · -- blacklist gate
            refine activeRegistered_of st _ (cancelPendingResume_active _ _) ?_ h
            intro k hk
            rw [cancelPendingResume_allMedia]
            exact hk
          · refine promotePlay_aR now dsnap tabId frameId data tab _ _ _ ?_
            rw [cancelPendingResume_allMedia]
            exact hok

theorem handleMediaPauseNonActive_aR (now tabId frameId : Nat)
    (data : EventData) (st0 : MMState) (h : activeRegistered st0) :
    activeRegistered
      (handleMediaPause.handleMediaPauseNonActive now tabId frameId data st0).st := by
  simp only [handleMediaPause.handleMediaPauseNonActive]
  split
  · exact h
  · split
    · split
      · exact activeRegistered_of st0 _ rfl (fun k hk => hk) h
      · exact h
    · exact activeRegistered_of st0 _ rfl (fun k hk => hk) h

theorem handleMediaPause_aR (now : Nat) (settings : Settings)
    (tabId frameId : Nat) (data : EventData) (st : MMState)
    (h : activeRegistered st) :
    activeRegistered (handleMediaPause now settings tabId frameId data st).st := by
  have hup : activeRegistered { st with allMedia := alUpdate (tabId, frameId, data.mediaId) (fun v => { v with isPlaying := false, currentTime := jsOrN data.currentTime v.currentTime }) st.allMedia } :=
    activeRegistered_of st _ rfl
      (fun k hk => alGet_alUpdate_ne_none k (tabId, frameId, data.mediaId) (fun v => { v with isPlaying := false, currentTime := jsOrN data.currentTime v.currentTime }) st.allMedia hk) h
  simp only [handleMediaPause]
  split
  · split
    · refine activeRegistered_none _ ?_
      rw [scheduleResumePrevious_active]
    · exact handleMediaPauseNonActive_aR now tabId frameId data _ hup
  · exact handleMediaPauseNonActive_aR now tabId frameId data _ hup

theorem handleTimeUpdate_aR (now tabId frameId : Nat) (data : EventData)
    (st : MMState) (h : activeRegistered st) :
    activeRegistered (handleTimeUpdate now tabId frameId data st).st := by
  have hup : ∀ k, alGet k st.allMedia ≠ none → alGet k (alUpdate (tabId, frameId, data.mediaId) (fun v => { v with currentTime := data.currentTime, duration := jsOrN data.duration v.duration, lastHeartbeat := now }) st.allMedia) ≠ none :=
    fun k hk => alGet_alUpdate_ne_none _ _ _ _ hk
  simp only [handleTimeUpdate]
  split
  · rename_i act heq
    split
    · intro b hb hd
      have hb2 := Option.some.inj hb
      subst hb2
      obtain ⟨t, f, ht, hf, hg⟩ := h act heq (by exact hd)
      exact ⟨t, f, ht, hf, hup _ hg⟩
    · exact activeRegistered_of st _ rfl hup h
  · exact activeRegistered_of st _ rfl hup h

theorem handleMediaEnded_aR (now : Nat) (settings : Settings)
    (tabId frameId : Nat) (data : EventData) (st : MMState)
    (h : activeRegistered st) :
    activeRegistered (handleMediaEnded now settings tabId frameId data st).st := by
  have hup : ∀ k, alGet k st.allMedia ≠ none → alGet k (alUpdate (tabId, frameId, data.mediaId) (fun v => { v with isPlaying := false }) st.allMedia) ≠ none :=
    fun k hk => alGet_alUpdate_ne_none _ _ _ _ hk
  simp only [handleMediaEnded]
  split
  · split
    · refine activeRegistered_none _ ?_
      rw [scheduleResumePrevious_active]
    · exact activeRegistered_of st _ rfl hup h
  · exact activeRegistered_of st _ rfl hup h

theorem activeRegistered_restrict (st st2 : MMState)
    (hact : st2.activeMedia = st.activeMedia)
    (hget : ∀ a, st.activeMedia = some a → ∀ t f, a.tabId = some t →
      a.frameId = some f → alGet (t, f, a.mediaId) st.allMedia ≠ none →
      alGet (t, f, a.mediaId) st2.allMedia ≠ none)
    (h : activeRegistered st) : activeRegistered st2 := by
  intro a ha hd
  obtain ⟨t, f, ht, hf, hg⟩ := h a (hact ▸ ha) hd
  exact ⟨t, f, ht, hf, hget a (hact ▸ ha) t f ht hf hg⟩

theorem resumeAfterUnregister_aR (now : Nat) (settings : Settings)
    (tabId frameId : Nat) (data : EventData) (c : MMState × List Intent)
    (st : MMState) (hact : c.1.activeMedia = st.activeMedia)
    (hmed : c.1.allMedia = alDel (tabId, frameId, data.mediaId) st.allMedia)
    (h : activeRegistered st) :
    activeRegistered (resumeAfterUnregister now settings tabId frameId data c).st := by
  simp only [resumeAfterUnregister]
  split
  · rename_i act heq
    split
    · refine activeRegistered_none _ ?_
      rw [scheduleResumePrevious_active]
    · rename_i hnm
      intro b hb hd
      have hb2 : act = b := Option.some.inj (heq.symm.trans hb)
      subst hb2
      have hact2 : st.activeMedia = some act := by
        rw [← hact]
        exact heq
      obtain ⟨t, f, ht, hf, hg⟩ := h act hact2 hd
      refine ⟨t, f, ht, hf, ?_⟩
      show alGet (t, f, act.mediaId) c.1.allMedia ≠ none
      rw [hmed]
      refine alGet_filter_ne_none _ _ _ hg ?_
      intro p hp hpk
      rw [decide_eq_true_eq]
      intro hcon
      rw [hpk] at hcon
      simp only [Prod.ext_iff] at hcon
      apply hnm
      refine (matchesEvent_iff act tabId frameId data.mediaId).mpr ?_
      simp [keyOf, ht, hf, hcon.1, hcon.2.1, hcon.2.2]
  · rename_i heq
    exact activeRegistered_none _ heq

theorem handleMediaUnregistered_aR (now : Nat) (settings : Settings)
    (tabId frameId : Nat) (data : EventData) (st : MMState)
    (h : activeRegistered st) :
    activeRegistered (handleMediaUnregistered now settings tabId frameId data st).st := by
  simp only [handleMediaUnregistered]
  split
  · split
    · refine resumeAfterUnregister_aR now settings tabId frameId data _ st ?_ ?_ h
      · rw [cancelPendingResume_active]
      · rw [cancelPendingResume_allMedia]
    · exact resumeAfterUnregister_aR now settings tabId frameId data _ st rfl rfl h
  · exact resumeAfterUnregister_aR now settings tabId frameId data _ st rfl rfl h

theorem handleTabClosed_aR (now : Nat) (settings : Settings) (tabId : Nat)
    (st : MMState) (hE : EngineInv st) (h : activeRegistered st) :
    activeRegistered (handleTabClosed now settings tabId st).st := by
  obtain ⟨hr, _⟩ := hE
  rcases hact : st.activeMedia with _ | act
  · simp only [handleTabClosed, hact]
    split
    · split
      · exact activeRegistered_none _ (by rw [cancelPendingResume_active])
      · exact activeRegistered_none _ rfl
    · exact activeRegistered_none _ rfl
  · simp only [handleTabClosed, hact]
    split
    · split
      · split
        · exact activeRegistered_none _ (by rw [scheduleResumePrevious_active])
        · exact activeRegistered_none _ (by rw [scheduleResumePrevious_active])
      · exact activeRegistered_none _ (by rw [scheduleResumePrevious_active])
    · rename_i htb
      have hkeep : ∀ st2 : MMState, st2.activeMedia = some act →
          st2.allMedia = st.allMedia.filter (fun p => decide (p.2.tabId ≠ some tabId)) →
          activeRegistered st2 := by
        intro st2 ha2 hm2 a ha hd
        have haa : a = act := Option.some.inj (ha.symm.trans ha2)
        subst haa
        obtain ⟨t, f, ht, hf, hg⟩ := h a hact hd
        refine ⟨t, f, ht, hf, ?_⟩
        rw [hm2]
        refine alGet_filter_ne_none _ _ _ hg ?_
        intro p hp hpk
        rw [decide_eq_true_eq]
        have hcons := (hr p hp).1
        rw [hpk] at hcons
        rw [hcons]
        rw [ht] at htb
        simpa using htb
      split
      · split
        · exact hkeep _ (by rw [cancelPendingResume_active])
            (by rw [cancelPendingResume_allMedia])
        · exact hkeep _ rfl rfl
      · exact hkeep _ rfl rfl

theorem controlDesktopMedia_aR (now : Nat) (settings : Settings)
    (mediaId action : String) (st : MMState) (h : activeRegistered st) :
    activeRegistered (controlDesktopMedia now settings mediaId action st).st := by
  simp only [controlDesktopMedia]
  split
  · refine activeRegistered_of st _ (cancelPendingResume_active _ _) ?_ h
    intro k hk
    rw [cancelPendingResume_allMedia]
    exact hk
  · split
    · split
      · split
        · refine activeRegistered_none _ ?_
          rw [scheduleResumePrevious_active]
        · refine activeRegistered_of st _ ?_ ?_ h
          · rw [scheduleResumePrevious_active]
          · intro k hk
            rw [scheduleResumePrevious_allMedia]
            exact hk
      · refine activeRegistered_of st _ ?_ ?_ h
        · rw [scheduleResumePrevious_active]
        · intro k hk
          rw [scheduleResumePrevious_allMedia]
          exact hk
    · split
      · exact h
      · split
        · exact h
        · exact h

theorem controlMedia_aR (now : Nat) (settings : Settings) (data : ControlData)
    (st : MMState) (h : activeRegistered st) :
    activeRegistered (controlMedia now settings data st).st := by
  simp only [controlMedia]
  split
  · exact controlDesktopMedia_aR now settings data.mediaId data.action st h
  · split
    · refine activeRegistered_of st _ (cancelPendingResume_active _ _) ?_ h
      intro k hk
      rw [cancelPendingResume_allMedia]
      exact hk
    · split
      · split
        · split
          · refine activeRegistered_none _ ?_
            rw [scheduleResumePrevious_active]
          · refine activeRegistered_of st _ ?_ ?_ h
            · rw [scheduleResumePrevious_active]
            · intro k hk
              rw [scheduleResumePrevious_allMedia]
              exact hk
        · refine activeRegistered_of st _ ?_ ?_ h
          · rw [scheduleResumePrevious_active]
          · intro k hk
            rw [scheduleResumePrevious_allMedia]
            exact hk
      · split
        · exact h
        · split
          · exact h
          · exact h

theorem onDesktopMediaPlay_aR (now : Nat) (d : MediaRec) (st : MMState)
    (hd : isDesktopMedia d = true) :
    activeRegistered (onDesktopMediaPlay now d st).st := by
  simp only [onDesktopMediaPlay]
  intro b hb hdf
  have hb2 : ({ d with startedAt := now, lastHeartbeat := now } : MediaRec) = b :=
    Option.some.inj hb
  subst hb2
  exact absurd (hd.symm.trans hdf) (by simp)

theorem onDesktopMediaPause_aR (now : Nat) (settings : Settings) (d : MediaRec)
    (st : MMState) (h : activeRegistered st) :
    activeRegistered (onDesktopMediaPause now settings d st).st := by
  simp only [onDesktopMediaPause]
  split
  · split
    · refine activeRegistered_none _ ?_
      rw [scheduleResumePrevious_active]
    · split
      · exact activeRegistered_of st _ rfl (fun k hk => hk) h
      · exact h
  · split
    · exact activeRegistered_of st _ rfl (fun k hk => hk) h
    · exact h

theorem onDesktopDisconnected_aR (st : MMState) (h : activeRegistered st) :
    activeRegistered (onDesktopDisconnected st).st := by
  simp only [onDesktopDisconnected]
  split
  · rename_i act heq
    split
    · exact activeRegistered_none _ rfl
    · intro b hb hdf
      have hb2 : act = b := Option.some.inj hb
      subst hb2
      obtain ⟨t, f, ht, hf, hg⟩ := h act heq hdf
      exact ⟨t, f, ht, hf, hg⟩
  · exact activeRegistered_none _ rfl

theorem cancelPendingResume_aR (b : Bool) (st : MMState)
    (h : activeRegistered st) :
    activeRegistered (cancelPendingResume b st).1 := by
  refine activeRegistered_of st _ (cancelPendingResume_active _ _) ?_ h
  intro k hk
  rw [cancelPendingResume_allMedia]
  exact hk

theorem applyOp_aR (st : MMState) (op : Op) (hE : EngineInv st)
    (h : activeRegistered st) (hok : opOK st op) :
    activeRegistered (applyOp st op) := by
  cases op with
  | register tabId frameId settings data tab =>
      exact handleMediaRegistered_aR tabId frameId settings data tab st h
  | unregister now settings tabId frameId data =>
      exact handleMediaUnregistered_aR now settings tabId frameId data st h
  | play now settings dsnap tabId frameId data tab =>
      exact handleMediaPlay_aR now settings dsnap tabId frameId data tab st h hok
  | pause now settings tabId frameId data =>
      exact handleMediaPause_aR now settings tabId frameId data st h
  | ended now settings tabId frameId data =>
      exact handleMediaEnded_aR now settings tabId frameId data st h
  | timeUpdate now tabId frameId data =>
      exact handleTimeUpdate_aR now tabId frameId data st h
  | tabClosed now settings tabId => exact handleTabClosed_aR now settings tabId st hE h
  | control now settings data => exact controlMedia_aR now settings data st h
  | desktopPlay now d => exact onDesktopMediaPlay_aR now d.toRec st hok
  | desktopPause now settings d =>
      exact onDesktopMediaPause_aR now settings d.toRec st h
  | desktopGone => exact onDesktopDisconnected_aR st h
  | cancel b => exact cancelPendingResume_aR b st h

theorem reachRegistered_inv (st : MMState) (h : ReachRegistered st) :
    EngineInv st ∧ activeRegistered st := by
  induction h with
  | init =>
      refine ⟨⟨fun _ hp => absurd hp (List.not_mem_nil _), ?_⟩, ?_⟩
      · simp [NoDupIdents, initState]
      · exact activeRegistered_none initState rfl
  | step st op _ hok ih =>
      exact ⟨applyOp_inv st op ih.1, applyOp_aR st op ih.1 ih.2 hok⟩

/-- Promotion operation used by the C7 counterexample: a play event for the
never-registered identity `(1, 0, "x")`. -/
def c7op : Op := Op.play 1000 {} {} 1 0 { mediaId := "x", title := "X" } c5tab

/-- State after the unregistered play event. -/
def c7bad : MMState := runOps initState [c7op]

/-- **C7 counterexample** — a single play event for a never-registered
identity leaves the Active Slot holding a local (non-desktop) record whose
identity is absent from the Source Registry: the registry stays empty while
the Active Slot is occupied, refuting the claim over arbitrary public
operation sequences (the code does not check registry membership on play). -/
theorem c7_counterexample :
    c7bad.allMedia = [] ∧ c7bad.activeMedia.isSome = true ∧
    isDesktopMedia (c7bad.activeMedia.getD {}) = false ∧
    ¬ activeRegistered c7bad := by
  refine ⟨by decide, by decide, by decide, ?_⟩
  intro h
  obtain ⟨t, f, _, _, hg⟩ := h (c7bad.activeMedia.getD {}) (by decide) (by decide)
  exact hg rfl

/-- **C7 (amended)** — in every state reachable from the empty initial state
by public operations restricted so that each play event targets an identity
currently present in the Source Registry and each desktop-link play carries
desktop-identified media, a local (non-desktop) Active Slot always points at
an identity present in the Source Registry. -/
theorem c7_amended (st : MMState) (h : ReachRegistered st) :
    activeRegistered st :=
  (reachRegistered_inv st h).2

theorem c7_amended_witness :
    activeRegistered (applyOp (applyOp initState
      (Op.register 1 0 {} { mediaId := "x", title := "X" } c5tab)) c7op) :=
  c7_amended _ (ReachRegistered.step _ c7op
    (ReachRegistered.step _ _ ReachRegistered.init trivial)
    (by simp only [c7op, opOK]; decide))

theorem c8_play_with_fade_witness :
    playMediaWithFadeIn { fadeInDuration := 0 }
        { tabId := some 1, frameId := some 0, mediaId := "x" } (fun _ => true) =
      [Intent.playIntent 1 0 "x"] ∧
    fadeVolume ((1 : ℚ)/5) FADE_STEPS = 1 := by
  have h := c8_play_with_fade { fadeInDuration := 0 }
    { tabId := some 1, frameId := some 0, mediaId := "x" } 1 0 (fun _ => true)
    (by decide) rfl rfl (by norm_num) (by norm_num)
  exact ⟨h.1 (by decide), h.2.2.2.2.2.2.1⟩

end AutoStop
